import Mathlib

/-!
Verification development for the review orchestration engine of the
rachelslurs/code-reviewer repository.

The TypeScript sources are shallowly embedded as executable Lean
definitions.  Conventions used throughout:

* JS `Date` values / `Date.now()` are modelled as integer milliseconds
  (`Int`, or `Nat` where the source feeds them to `Number.toString(36)`).
* A JS call that can throw is modelled with `Option`/`Except`: `none`
  (resp. `.error`) is the exception.  The filesystem is a parameter
  `statFile : FileInfo → Option Int` giving the outcome of the
  `statSync` call made by the cache manager (`some mtime` = success,
  `none` = throw).
* `Map` objects are association lists with JS `Map.set`/`get`/`delete`
  semantics (insertion order preserved, `set` overwrites in place).
* Floating-point display strings, console output, cost accounting
  (dollar amounts) and git metadata are omitted: they are display-only
  and no claim mentions them.  Template multipliers of the token
  estimator (1.5, 2.0, ...) are exact tenths, so they are computed
  tenth-scaled over `Nat` (exact, agreeing with the rational value of
  the source's arithmetic).
-/

/-- file-scanner.ts `FileInfo`: the record produced by `processFile`
(fields `path`, `relativePath`, `size`, `extension`, `content`). -/
structure FileInfo where
  path : String
  relativePath : String
  size : Nat
  extension : String
  content : String
deriving DecidableEq, Repr

/-- Token usage pair `{input, output}` of a review result. -/
structure TokensUsed where
  input : Nat
  output : Nat
deriving DecidableEq, Repr

/-- reviewer.ts `ReviewResult` (the cache-enabled CodeReviewer version):
`authMethod` is one of "claude-code" / "api-key" / "oauth-token". -/
structure ReviewResult where
  filePath : String
  template : String
  feedback : String
  tokensUsed : TokensUsed
  timestamp : Int
  hasIssues : Bool
  authMethod : String
deriving DecidableEq, Repr

/-- ASCII lowercasing, modelling `String.prototype.toLowerCase` on the
ASCII feedback strings the claims exercise. -/
def toLowerAscii (s : String) : String :=
  String.mk (s.data.map Char.toLower)

/-- JS `hay.includes(needle)`: `needle` occurs as a contiguous substring. -/
def containsSubstring (hay needle : String) : Bool :=
  (List.range (hay.data.length + 1)).any
    (fun i => needle.data.isPrefixOf (hay.data.drop i))

/-- reviewer.ts `detectIssues` keyword vocabulary. -/
def issueIndicators : List String :=
  ["issue", "problem", "error", "warning", "concern",
   "should", "could", "recommend", "suggest", "improve",
   "missing", "unnecessary", "inefficient", "unclear",
   "🚨", "⚠️", "❌", "🔴"]

/-- reviewer.ts `CodeReviewer.detectIssues`: the lowercased feedback
contains some indicator. -/
def detectIssues (feedback : String) : Bool :=
  issueIndicators.any (fun ind => containsSubstring (toLowerAscii feedback) ind)

/-! ## Cache manager (src/utils/cache-manager.ts)

The content hash (`createHash('sha256')...slice(0, 16)`) is an opaque
pure function of the content string; it is a parameter `hashFn` of every
cache operation.

The modification-time check calls `statSync(file.absolutePath)`.
`FileInfo` (file-scanner.ts) has no `absolutePath` field, so at run time
the call receives `undefined` and throws; its outcome is modelled by the
accessor `statAbsolutePath` below, and the operations are stated over a
general outcome function `statFile` so that the intended (`file.path`)
behaviour can also be examined. -/

/-- cache-manager.ts `CacheEntry` (`cachedAt` ISO string modelled as
integer milliseconds). -/
structure CacheEntry where
  fileHash : String
  filePath : String
  template : String
  result : ReviewResult
  cachedAt : Int
  fileSize : Nat
  lastModified : Int
deriving DecidableEq, Repr

/-- The in-memory cache `Map<string, CacheEntry>` as an association list
in insertion order. -/
abbrev Cache : Type := List (String × CacheEntry)

/-- `Map.get`. -/
def cacheGet (cache : Cache) (key : String) : Option CacheEntry :=
  (cache.find? (fun kv => kv.1 == key)).map (fun kv => kv.2)

/-- `Map.delete`. -/
def cacheDelete (cache : Cache) (key : String) : Cache :=
  cache.filter (fun kv => !(kv.1 == key))

/-- `Map.set`: overwrite in place if the key is present, else append. -/
def cacheSet (cache : Cache) (key : String) (entry : CacheEntry) : Cache :=
  if cache.any (fun kv => kv.1 == key) then
    cache.map (fun kv => if kv.1 == key then (key, entry) else kv)
  else
    cache ++ [(key, entry)]

/-- cache-manager.ts `getCacheKey`. -/
def cacheKey (filePath template : String) : String :=
  filePath ++ ":" ++ template

/-- Outcome of the source's `statSync(file.absolutePath)` call:
`FileInfo` has no `absolutePath` field, so `statSync` receives
`undefined` and throws (`ERR_INVALID_ARG_TYPE`) on every call; every
execution of the mtime check lands in the `catch` branch. -/
def statAbsolutePath : FileInfo → Option Int := fun _ => none

/-- cache-manager.ts `isCached`: returns the boolean together with the
(possibly pruned) cache.  `statFile` is the outcome of the `statSync`
call (in the real program: `statAbsolutePath`). -/
def isCached (hashFn : String → String) (statFile : FileInfo → Option Int)
    (cache : Cache) (file : FileInfo) (template : String) : Bool × Cache :=
  let key := cacheKey file.relativePath template
  match cacheGet cache key with
  | none => (false, cache)
  | some cached =>
      let currentHash := hashFn file.content
      if cached.fileHash ≠ currentHash then
        (false, cacheDelete cache key)
      else
        match statFile file with
        | none => (false, cacheDelete cache key)
        | some mtime =>
            if mtime ≠ cached.lastModified then (false, cacheDelete cache key)
            else (true, cache)

/-- cache-manager.ts `getCached`: reads the entry, then validates via
`isCached`; serves the stored result only on a valid hit. -/
def getCached (hashFn : String → String) (statFile : FileInfo → Option Int)
    (cache : Cache) (file : FileInfo) (template : String) :
    Option ReviewResult × Cache :=
  let key := cacheKey file.relativePath template
  match cacheGet cache key with
  | none => (none, cache)
  | some cached =>
      let checked := isCached hashFn statFile cache file template
      (if checked.1 then some cached.result else none, checked.2)

/-- cache-manager.ts `cacheResult`: stores the entry; if the `statSync`
call throws, `lastModified` falls back to `Date.now()`. -/
def cacheResult (hashFn : String → String) (statFile : FileInfo → Option Int)
    (now : Int) (cache : Cache) (file : FileInfo) (template : String)
    (result : ReviewResult) : Cache :=
  let key := cacheKey file.relativePath template
  let fileHash := hashFn file.content
  let lastModified := (statFile file).getD now
  cacheSet cache key
    { fileHash := fileHash, filePath := file.relativePath, template := template,
      result := result, cachedAt := now, fileSize := file.size,
      lastModified := lastModified }

/-- cache-manager.ts `separateFiles`: walks the file list once, sending
each file to the hit list (with its cached result) or the miss list.
(The display-only `stats` record of the source is not modelled.) -/
def separateFiles (hashFn : String → String) (statFile : FileInfo → Option Int)
    (cache : Cache) (files : List FileInfo) (template : String) :
    List (FileInfo × ReviewResult) × List FileInfo × Cache :=
  match files with
  | [] => ([], [], cache)
  | f :: rest =>
      let looked := getCached hashFn statFile cache f template
      let tail := separateFiles hashFn statFile looked.2 rest template
      match looked.1 with
      | some r => ((f, r) :: tail.1, tail.2.1, tail.2.2)
      | none => (tail.1, f :: tail.2.1, tail.2.2)

/-! ## Session manager (src/utils/session-manager.ts)

Sessions are persisted as one JSON file per session id in a session
directory; the directory is modelled as an association list keyed by
session id (`SessionStore`).  Git metadata (`gitCommit`/`gitBranch`,
advisory display-only fields filled from `execSync`) is omitted.
Creation timestamps are `Nat` milliseconds because the source feeds
`Date.now()` to `Number.prototype.toString(36)`. -/

/-- The `sessionConfig` sub-record of a session. -/
structure SessionConfigOpts where
  outputFormat : String
  outputFile : Option String
  noCache : Bool
deriving DecidableEq, Repr

/-- session-manager.ts `ReviewSession`. -/
structure ReviewSession where
  id : String
  startedAt : Nat
  lastUpdated : Nat
  template : String
  totalFiles : Nat
  completedFiles : Nat
  targetPath : String
  pendingFiles : List FileInfo
  completedResults : List ReviewResult
  sessionConfig : SessionConfigOpts
deriving DecidableEq, Repr

/-- The on-disk session directory: one record per session id. -/
abbrev SessionStore : Type := List (String × ReviewSession)

/-- Store read (by file name = session id). -/
def storeGet (store : SessionStore) (sessionId : String) : Option ReviewSession :=
  (store.find? (fun kv => kv.1 == sessionId)).map (fun kv => kv.2)

/-- Store write (overwrite the record of that id, else create it). -/
def storeSet (store : SessionStore) (sessionId : String) (s : ReviewSession) :
    SessionStore :=
  if store.any (fun kv => kv.1 == sessionId) then
    store.map (fun kv => if kv.1 == sessionId then (sessionId, s) else kv)
  else
    store ++ [(sessionId, s)]

/-- Store delete (`fs.unlinkSync` of the session file). -/
def storeDelete (store : SessionStore) (sessionId : String) : SessionStore :=
  store.filter (fun kv => !(kv.1 == sessionId))

/-- Digit character of `Number.prototype.toString(36)` (0-9 then a-z). -/
def base36Char (n : Nat) : Char :=
  if n < 10 then Char.ofNat (48 + n) else Char.ofNat (87 + n)

/-- Digit loop for `toBase36` (fuel-driven; `n + 1` fuel suffices). -/
def toBase36Go : Nat → Nat → List Char → List Char
  | 0, _, acc => acc
  | fuel + 1, n, acc =>
      if n = 0 then acc
      else toBase36Go fuel (n / 36) (base36Char (n % 36) :: acc)

/-- JS `n.toString(36)` for a natural number. -/
def toBase36 (n : Nat) : String :=
  if n = 0 then "0" else String.mk (toBase36Go (n + 1) n [])

/-- One character of `targetPath.replace(/[^a-zA-Z0-9]/g, '_')`. -/
def sanitizePathChar (c : Char) : Char :=
  if c.isAlphanum then c else '_'

/-- session-manager.ts `generateSessionId`: template, sanitized path
clipped to 20 characters, and the base-36 rendering of `Date.now()`. -/
def generateSessionId (targetPath template : String) (now : Nat) : String :=
  let pathHash := String.mk ((targetPath.data.map sanitizePathChar).take 20)
  template ++ "_" ++ pathHash ++ "_" ++ toBase36 now

/-- session-manager.ts `saveSession` (write the session under its id). -/
def saveSession (store : SessionStore) (s : ReviewSession) : SessionStore :=
  storeSet store s.id s

/-- session-manager.ts `loadSession` (read the record of that id;
unreadable/corrupt records are `none`, handled by the store model). -/
def loadSession (store : SessionStore) (sessionId : String) : Option ReviewSession :=
  storeGet store sessionId

/-- Options record taken by `startSession`. -/
structure StartOptions where
  outputFormat : String
  outputFile : Option String
  noCache : Bool
  resume : Bool
deriving DecidableEq, Repr

/-- session-manager.ts `startSession`: derives the id from target path,
template and the current time; with `resume` it first tries to load a
persisted session under that id, otherwise creates (and saves) a fresh
session from the scanned files. -/
def startSession (store : SessionStore) (files : List FileInfo)
    (template targetPath : String) (options : StartOptions) (now : Nat) :
    ReviewSession × SessionStore :=
  let sessionId := generateSessionId targetPath template now
  match (if options.resume then loadSession store sessionId else none) with
  | some existing => (existing, store)
  | none =>
      let session : ReviewSession :=
        { id := sessionId, startedAt := now, lastUpdated := now,
          template := template, totalFiles := files.length,
          completedFiles := 0, targetPath := targetPath,
          pendingFiles := files, completedResults := [],
          sessionConfig :=
            { outputFormat := options.outputFormat,
              outputFile := options.outputFile, noCache := options.noCache } }
      (session, saveSession store session)

/-- session-manager.ts `markFilesCompleted`: append the results, recount,
drop the completed relative paths from the pending list, stamp
`lastUpdated`, and re-persist the session. -/
def markFilesCompleted (store : SessionStore) (session : ReviewSession)
    (results : List ReviewResult) (now : Nat) : ReviewSession × SessionStore :=
  let completedResults := session.completedResults ++ results
  let completedPaths := results.map (fun r => r.filePath)
  let pendingFiles := session.pendingFiles.filter
    (fun f => !(completedPaths.contains f.relativePath))
  let session2 : ReviewSession :=
    { session with
      completedResults := completedResults,
      completedFiles := completedResults.length,
      pendingFiles := pendingFiles,
      lastUpdated := now }
  (session2, saveSession store session2)

/-- session-manager.ts `completeSession`: delete the persisted record. -/
def completeSession (store : SessionStore) (session : ReviewSession) : SessionStore :=
  storeDelete store session.id

/-- session-manager.ts `getRemainingFiles` of the active session. -/
def getRemainingFiles (session : ReviewSession) : List FileInfo :=
  session.pendingFiles

/-- session-manager.ts `getCompletedResults` of the active session. -/
def getCompletedResults (session : ReviewSession) : List ReviewResult :=
  session.completedResults

/-! ## Token tracker (token-tracker.ts)

State of a `TokenTracker` instance.  Timestamps are `Int` milliseconds.
The dollar-cost accumulator (floating point, display-only) is omitted;
the token totals are kept. -/

/-- The cumulative `usage` record (cost field omitted). -/
structure TokenUsageTotals where
  inputTokens : Nat
  outputTokens : Nat
  totalTokens : Nat
deriving DecidableEq, Repr

/-- token-tracker.ts `TokenTracker` instance state: cumulative totals
plus the two parallel per-minute logs. -/
structure TokenTracker where
  usage : TokenUsageTotals
  requestTimes : List Int
  tokenUsageMinute : List Nat
deriving DecidableEq, Repr

/-- A fresh tracker. -/
def TokenTracker.init : TokenTracker :=
  { usage := { inputTokens := 0, outputTokens := 0, totalTokens := 0 },
    requestTimes := [], tokenUsageMinute := [] }

/-- `rateLimits.requestsPerMinute` of the tracker. -/
def ttRequestsPerMinute : Nat := 5

/-- `rateLimits.tokensPerMinute` of the tracker. -/
def ttTokensPerMinute : Nat := 40000

/-- `rateLimits.requestsPerDay` of the tracker (declared but never read
by any tracker method). -/
def ttRequestsPerDay : Nat := 1000

/-- `rateLimits.tokensPerDay` of the tracker (declared but never read
by any tracker method). -/
def ttTokensPerDay : Nat := 500000

/-- token-tracker.ts `recordUsage`: bump the totals, append to both
logs, then prune `requestTimes` to the trailing 60 seconds; the token
log keeps exactly the entries whose index still exists in the pruned
request log (the source filters it by `this.requestTimes[index] !==
undefined` against the already-pruned array). -/
def recordUsage (t : TokenTracker) (now : Int) (inputTokens outputTokens : Nat) :
    TokenTracker :=
  let totalTokens := inputTokens + outputTokens
  let usage : TokenUsageTotals :=
    { inputTokens := t.usage.inputTokens + inputTokens,
      outputTokens := t.usage.outputTokens + outputTokens,
      totalTokens := t.usage.totalTokens + totalTokens }
  let requestTimes := t.requestTimes ++ [now]
  let tokenUsageMinute := t.tokenUsageMinute ++ [totalTokens]
  let oneMinuteAgo := now - 60000
  let requestTimes2 := requestTimes.filter (fun time => oneMinuteAgo < time)
  let tokenUsageMinute2 := tokenUsageMinute.take requestTimes2.length
  { usage := usage, requestTimes := requestTimes2,
    tokenUsageMinute := tokenUsageMinute2 }

/-- `Math.ceil(a / b)` for integers with `b > 0`. -/
def ceilDivInt (a b : Int) : Int := Int.fdiv (a + b - 1) b

/-- `Math.min(...)` over a list, with a default for the empty list (the
source reaches the empty case only through `NaN`/`Infinity` edge cases
that no claim exercises). -/
def listMinD (l : List Int) (d : Int) : Int :=
  match l with
  | [] => d
  | x :: xs => xs.foldl min x

/-- Result record of `canMakeRequest`. -/
structure RateCheck where
  allowed : Bool
  waitTime : Option Int
  reason : Option String
deriving DecidableEq, Repr

/-- The request timestamps of the trailing minute. -/
def recentRequestTimes (t : TokenTracker) (now : Int) : List Int :=
  t.requestTimes.filter (fun time => now - 60000 < time)

/-- Token sum of the trailing minute: the token log filtered by the
timestamp at the same index of the request log. -/
def recentTokenSum (t : TokenTracker) (now : Int) : Nat :=
  (((t.requestTimes.zip t.tokenUsageMinute).filter
      (fun p => now - 60000 < p.1)).map (fun p => p.2)).sum

/-- token-tracker.ts `canMakeRequest`: requests-per-minute check, then
tokens-per-minute check, over the trailing 60-second logs only.  (No
per-day ceiling is consulted anywhere in this function.) -/
def canMakeRequest (t : TokenTracker) (now : Int) (estimatedTokens : Nat) :
    RateCheck :=
  let recent := recentRequestTimes t now
  if ttRequestsPerMinute ≤ recent.length then
    let oldestRequest := listMinD recent now
    { allowed := false,
      waitTime := some (ceilDivInt (oldestRequest + 60000 - now) 1000),
      reason := some "Rate limit: 5 requests per minute" }
  else
    let recentTokens := recentTokenSum t now
    if ttTokensPerMinute < recentTokens + estimatedTokens then
      let oldestTokenUsage := listMinD recent now
      { allowed := false,
        waitTime := some (ceilDivInt (oldestTokenUsage + 60000 - now) 1000),
        reason := some "Rate limit: 40000 tokens per minute" }
    else
      { allowed := true, waitTime := none, reason := none }

/-! ## Model status checker (src/utils/model-status-checker.ts)

Per-model request/token histories plus the derivation of a model's
availability status.  Only the pure parts reached by the claims are
modelled (display helpers are console-only). -/

/-- token-estimator.ts `ModelLimits.rateLimit` (`requestsPerDay` is
optional). -/
structure RateLimitCfg where
  requestsPerMinute : Nat
  tokensPerMinute : Nat
  requestsPerDay : Option Nat
deriving DecidableEq, Repr

/-- `currentUsage` record computed by `getCurrentUsage`. -/
structure StatusUsage where
  requestsThisMinute : Nat
  tokensThisMinute : Nat
  requestsToday : Nat
deriving DecidableEq, Repr

/-- model-status-checker.ts `getCurrentUsage`: trailing-minute request
count and token sum, and trailing-24-hour request count. -/
def getCurrentUsage (requests : List Int) (tokens : List (Int × Nat)) (now : Int) :
    StatusUsage :=
  let oneMinuteAgo := now - 60000
  let oneDayAgo := now - 86400000
  { requestsThisMinute := (requests.filter (fun time => oneMinuteAgo < time)).length,
    tokensThisMinute :=
      ((tokens.filter (fun e => oneMinuteAgo < e.1)).map (fun e => e.2)).sum,
    requestsToday := (requests.filter (fun time => oneDayAgo < time)).length }

/-- The `status` field values of a `ModelStatus`. -/
inductive ModelAvail where
  | available
  | rate_limited
  | unavailable
deriving DecidableEq, Repr

/-- model-status-checker.ts `determineStatus`: per-minute request check,
per-minute token check, then the daily ceiling check (guarded by JS
truthiness of `requestsPerDay`, so absent or zero skips it); an exceeded
daily ceiling is rate-limited with `nextAvailableIn` left `undefined`. -/
def determineStatus (requests : List Int) (tokens : List (Int × Nat))
    (limits : RateLimitCfg) (usage : StatusUsage) (now : Int) :
    ModelAvail × Option Int :=
  if limits.requestsPerMinute ≤ usage.requestsThisMinute then
    let oldest := listMinD (requests.filter (fun time => now - 60000 < time)) now
    (.rate_limited, some (ceilDivInt (oldest + 60000 - now) 1000))
  else if limits.tokensPerMinute ≤ usage.tokensThisMinute then
    let oldest :=
      listMinD ((tokens.filter (fun e => now - 60000 < e.1)).map (fun e => e.1)) now
    (.rate_limited, some (ceilDivInt (oldest + 60000 - now) 1000))
  else if (match limits.requestsPerDay with
           | some d => decide (d ≠ 0 ∧ d ≤ usage.requestsToday)
           | none => false) then
    (.rate_limited, none)
  else
    (.available, none)

/-- model-status-checker.ts `recordRequest` followed by its
`cleanOldEntries`: append to both histories and prune both to the
trailing 24 hours. -/
def mscRecordRequest (requests : List Int) (tokens : List (Int × Nat))
    (now : Int) (tokensUsed : Nat) : List Int × List (Int × Nat) :=
  let requests2 := requests ++ [now]
  let tokens2 := tokens ++ [(now, tokensUsed)]
  let oneDayAgo := now - 86400000
  (requests2.filter (fun time => oneDayAgo < time),
   tokens2.filter (fun e => oneDayAgo < e.1))

/-! ## Token estimator (token-estimator.ts)

The regular expressions used by the estimator are alternations of
literals, except `const.*=>` which is literal, greedy non-newline `.*`,
literal.  A small scanner implements exactly these two shapes with the
JS `String.prototype.match(/.../g)` discipline: scan left to right,
alternatives tried in order, non-overlapping, advancing past each
match. -/

/-- One alternative of an estimator regex. -/
inductive ReAlt where
  | lit (s : List Char)
  | around (a b : List Char)
deriving Repr

/-- Match length of one alternative at the head of `l`: a literal
matches itself; `around a b` matches `a`, then greedy `.*` (not past a
newline, backtracking to the last viable position), then `b`. -/
def altMatchLen : ReAlt → List Char → Option Nat
  | .lit s, l => if s.isPrefixOf l then some s.length else none
  | .around a b, l =>
      if a.isPrefixOf l then
        let rest := l.drop a.length
        let lineLen := (rest.takeWhile (fun c => c ≠ '\n')).length
        match (List.range (lineLen + 1)).reverse.find?
            (fun p => b.isPrefixOf (rest.drop p)) with
        | some p => some (a.length + p + b.length)
        | none => none
      else none

/-- Scan loop of `countMatches` (fuel = remaining length; every step
consumes at least one character). -/
def countMatchesGo (alts : List ReAlt) : Nat → List Char → Nat
  | 0, _ => 0
  | _, [] => 0
  | fuel + 1, l =>
      match alts.findSome? (fun a => altMatchLen a l) with
      | some k => 1 + countMatchesGo alts fuel (l.drop (max k 1))
      | none => countMatchesGo alts fuel (l.drop 1)

/-- `(s.match(/alt1|alt2|.../g) || []).length`. -/
def countMatches (alts : List ReAlt) (s : String) : Nat :=
  countMatchesGo alts s.data.length s.data

/-- `/function|const.*=>|class /g` of `estimateOutputTokens`. -/
def functionAlts : List ReAlt :=
  [.lit "function".data, .around "const".data "=>".data, .lit "class ".data]

/-- `/import|require/g` of `estimateOutputTokens`. -/
def importAlts : List ReAlt :=
  [.lit "import".data, .lit "require".data]

/-- `/async|await|Promise|try|catch|if|for|while/g` of
`estimateOutputTokens`. -/
def complexAlts : List ReAlt :=
  [.lit "async".data, .lit "await".data, .lit "Promise".data,
   .lit "try".data, .lit "catch".data, .lit "if".data,
   .lit "for".data, .lit "while".data]

/-- The cyclomatic-keyword regex of `assessComplexity`. -/
def cyclomaticAlts : List ReAlt :=
  [.lit "if".data, .lit "for".data, .lit "while".data,
   .lit "switch".data, .lit "case".data, .lit "catch".data,
   .lit "?".data, .lit "&&".data, .lit "||".data]

/-- `code.split('\n').length`. -/
def lineCount (code : String) : Nat :=
  (code.data.filter (fun c => c = '\n')).length + 1

/-- `Math.ceil(n / 4)`. -/
def ceilDiv4 (n : Nat) : Nat := (n + 3) / 4

/-- Template multiplier of `estimateOutputTokens`, tenth-scaled
(quality 1.5, security 2.0, performance 1.3, typescript 1.2,
combined 2.5, default 1.0). -/
def templateMultiplierX10 (template : String) : Nat :=
  if template = "quality" then 15
  else if template = "security" then 20
  else if template = "performance" then 13
  else if template = "typescript" then 12
  else if template = "combined" then 25
  else 10

/-- token-estimator.ts `estimateOutputTokens`: base allowance plus a
weighted complexity score scaled by the template multiplier, capped at
4000, then `Math.ceil` — computed tenth-scaled (exact). -/
def estimateOutputTokens (code template : String) : Nat :=
  let lines := lineCount code
  let functions := countMatches functionAlts code
  let imports := countMatches importAlts code
  let complexPatterns := countMatches complexAlts code
  let m10 := templateMultiplierX10 template
  let complexityScore := lines * 2 + functions * 50 + imports * 10 + complexPatterns * 15
  (min (2000 + complexityScore * m10) 40000 + 9) / 10

/-- The complexity classes. -/
inductive Complexity where
  | low
  | medium
  | high
deriving DecidableEq, Repr

/-- token-estimator.ts `assessComplexity`: three-tier threshold on total
tokens, line count and cyclomatic keyword count, tested high to low. -/
def assessComplexity (code : String) (totalTokens : Nat) : Complexity :=
  let lines := lineCount code
  let cyclomatic := countMatches cyclomaticAlts code
  if 3000 < totalTokens ∨ 200 < lines ∨ 20 < cyclomatic then .high
  else if 1000 < totalTokens ∨ 50 < lines ∨ 5 < cyclomatic then .medium
  else .low

/-- token-estimator.ts `recommendModel`: fixed decision table on total
tokens, complexity and template. -/
def recommendModel (totalTokens : Nat) (complexity : Complexity)
    (template : String) : String :=
  if totalTokens < 1000 ∧ complexity = .low then "gemini-flash"
  else if template = "security" ∨ complexity = .high then "claude-sonnet"
  else if template = "typescript" ∨ (totalTokens < 2000 ∧ complexity = .medium) then
    "gemini-flash"
  else if 10000 < totalTokens then "gemini-pro"
  else "gemini-flash"

/-- token-estimator.ts `TokenEstimate` (the dollar `costEstimate` field,
floating point and unused by any claim, is omitted). -/
structure TokenEstimate where
  inputTokens : Nat
  outputTokens : Nat
  totalTokens : Nat
  complexity : Complexity
  recommendedModel : String
deriving DecidableEq, Repr

/-- token-estimator.ts `estimateTokens`: character-count input estimate
(plus 50 formatting overhead), heuristic output estimate, complexity
class, and model recommendation. -/
def estimateTokens (code systemPrompt fileName template : String) : TokenEstimate :=
  let codeTokens := ceilDiv4 code.length
  let promptTokens := ceilDiv4 systemPrompt.length
  let filenameTokens := ceilDiv4 fileName.length
  let inputTokens := codeTokens + promptTokens + filenameTokens + 50
  let outputTokens := estimateOutputTokens code template
  let totalTokens := inputTokens + outputTokens
  let complexity := assessComplexity code totalTokens
  { inputTokens := inputTokens, outputTokens := outputTokens,
    totalTokens := totalTokens, complexity := complexity,
    recommendedModel := recommendModel totalTokens complexity template }

/-- token-estimator.ts `ModelLimits` (pricing fields omitted: floating
point dollar rates unused by any claim). -/
structure ModelLimits where
  maxInputTokens : Nat
  maxOutputTokens : Nat
  rateLimit : RateLimitCfg
deriving DecidableEq, Repr

/-- token-estimator.ts `MODEL_LIMITS` table. -/
def MODEL_LIMITS : String → Option ModelLimits
  | "claude-sonnet" =>
      some { maxInputTokens := 200000, maxOutputTokens := 8192,
             rateLimit := { requestsPerMinute := 5, tokensPerMinute := 40000,
                            requestsPerDay := some 1000 } }
  | "claude-haiku" =>
      some { maxInputTokens := 200000, maxOutputTokens := 4096,
             rateLimit := { requestsPerMinute := 5, tokensPerMinute := 50000,
                            requestsPerDay := some 1000 } }
  | "gemini-pro" =>
      some { maxInputTokens := 2000000, maxOutputTokens := 8192,
             rateLimit := { requestsPerMinute := 2, tokensPerMinute := 32000,
                            requestsPerDay := some 50 } }
  | "gemini-flash" =>
      some { maxInputTokens := 1000000, maxOutputTokens := 8192,
             rateLimit := { requestsPerMinute := 15, tokensPerMinute := 1000000,
                            requestsPerDay := some 1500 } }
  | _ => none

/-- `Object.keys(MODEL_LIMITS)` in declaration order. -/
def modelKeys : List String :=
  ["claude-sonnet", "claude-haiku", "gemini-pro", "gemini-flash"]

/-- Result record of `fitsWithinLimits`. -/
structure FitsCheck where
  fits : Bool
  issues : List String
  alternatives : List String
deriving DecidableEq, Repr

/-- token-estimator.ts `fitsWithinLimits`: compares the estimate against
the static per-model ceilings; on failure lists alternative model keys
whose ceilings accommodate the estimate. -/
def fitsWithinLimits (estimate : TokenEstimate) (modelKey : String) : FitsCheck :=
  match MODEL_LIMITS modelKey with
  | none => { fits := false, issues := ["Unknown model"], alternatives := [] }
  | some limits =>
      let issues :=
        (if limits.maxInputTokens < estimate.inputTokens then
           ["Input tokens exceed limit"] else []) ++
        (if limits.maxOutputTokens < estimate.outputTokens then
           ["Estimated output tokens exceed limit"] else [])
      let alternatives :=
        if issues.isEmpty then []
        else
          modelKeys.filter (fun key =>
            match MODEL_LIMITS key with
            | some alt =>
                decide (estimate.inputTokens ≤ alt.maxInputTokens ∧
                        estimate.outputTokens ≤ alt.maxOutputTokens)
            | none => false)
      { fits := issues.isEmpty, issues := issues, alternatives := alternatives }

/-! ## Multi-model provider (multi-model-provider.ts)

The provider clients are external collaborators: a single review call
against a model key is an oracle `String → Except ProviderError
ModelResponse`.  `reviewCodeT` additionally returns the list of model
keys actually attempted (in order), which is what the fallback-ordering
claims are about. -/

/-- Error raised by a model call, classified the way the error handlers
dispatch on it: an API error carrying a `status`, a network error
carrying a `code`, or a plain `Error` with only a message. -/
inductive ProviderError where
  | apiError (status : Nat)
  | netError (code : String)
  | generic (msg : String)
deriving DecidableEq, Repr

/-- multi-model-provider.ts `ModelResponse`. -/
structure ModelResponse where
  content : String
  model : String
  provider : String
  tokensUsed : TokensUsed
  responseTime : Int
deriving DecidableEq, Repr

instance {ε α : Type} [DecidableEq ε] [DecidableEq α] : DecidableEq (Except ε α) :=
  fun a b =>
    match a, b with
    | .error e, .error f =>
        if h : e = f then .isTrue (by rw [h])
        else .isFalse (fun hc => h (by injection hc))
    | .error _, .ok _ => .isFalse Except.noConfusion
    | .ok _, .error _ => .isFalse Except.noConfusion
    | .ok x, .ok y =>
        if h : x = y then .isTrue (by rw [h])
        else .isFalse (fun hc => h (by injection hc))

/-- multi-model-provider.ts `ReviewRequest`. -/
structure ReviewRequest where
  code : String
  filename : String
  systemPrompt : String
  template : String
deriving DecidableEq, Repr

/-- multi-model-provider.ts `ModelConfig`. -/
structure ModelConfig where
  primaryModel : String
  fallbackModels : List String
  templateMappings : List (String × String)
  comparisonMode : Bool
  maxRetries : Nat
  timeout : Nat
deriving DecidableEq, Repr

/-- Which provider clients exist on a `MultiModelProvider` instance:
`useClaudeCode`, an initialized Anthropic client, an initialized Gemini
client. -/
structure ProviderState where
  useClaudeCode : Bool
  anthropic : Bool
  gemini : Bool
deriving DecidableEq, Repr

/-- multi-model-provider.ts `getAvailableModels`. -/
def getAvailableModels (st : ProviderState) : List String :=
  (if st.useClaudeCode || st.anthropic then ["claude-sonnet", "claude-haiku"]
   else []) ++
  (if st.gemini then ["gemini-pro", "gemini-flash"] else [])

/-- `templateMappings[template]` (association-list read). -/
def lookupMapping (mappings : List (String × String)) (template : String) :
    Option String :=
  (mappings.find? (fun kv => kv.1 == template)).map (fun kv => kv.2)

/-- The `smartMappings` table of `getOptimalModel`. -/
def smartMappings (template : String) : Option String :=
  if template = "security" then some "claude-sonnet"
  else if template = "quality" then some "gemini-pro"
  else if template = "performance" then some "gemini-pro"
  else if template = "typescript" then some "gemini-flash"
  else if template = "combined" then some "claude-sonnet"
  else none

/-- multi-model-provider.ts `getOptimalModel`: template mapping if
available (JS truthiness: the empty string is skipped), then smart
default if available, then the primary model if available, then the
first available model, else throw. -/
def getOptimalModel (config : ModelConfig) (st : ProviderState)
    (template : String) : Except String String :=
  let avail := getAvailableModels st
  let afterMapping :=
    match lookupMapping config.templateMappings template with
    | some tm => if tm ≠ "" ∧ tm ∈ avail then some tm else none
    | none => none
  match afterMapping with
  | some tm => .ok tm
  | none =>
      match (match smartMappings template with
             | some pm => if pm ∈ avail then some pm else none
             | none => none) with
      | some pm => .ok pm
      | none =>
          if config.primaryModel ∈ avail then .ok config.primaryModel
          else
            match avail with
            | a :: _ => .ok a
            | [] => .error "No models available"

/-- multi-model-provider.ts `getOptimalModelWithTokens`: the estimator's
recommendation if available and fitting; else the template choice if
fitting; else the first available model that fits; else — last resort —
the first available model even though it does not fit (the source
comment: let it fail gracefully). -/
def getOptimalModelWithTokens (config : ModelConfig) (st : ProviderState)
    (template : String) (estimate : TokenEstimate) : Except String String :=
  let avail := getAvailableModels st
  if estimate.recommendedModel ∈ avail ∧
      (fitsWithinLimits estimate estimate.recommendedModel).fits then
    .ok estimate.recommendedModel
  else
    match getOptimalModel config st template with
    | .error e => .error e
    | .ok templateChoice =>
        if (fitsWithinLimits estimate templateChoice).fits then .ok templateChoice
        else
          match avail.find? (fun m => (fitsWithinLimits estimate m).fits) with
          | some m => .ok m
          | none =>
              .ok (match avail with
                   | a :: _ => a
                   | [] => config.primaryModel)

/-- The eligibility test applied to each fallback candidate by the loop
of `reviewCode`: distinct from the already-attempted optimal model,
available, and fitting the estimate. -/
def eligibleFallback (st : ProviderState) (estimate : TokenEstimate)
    (optimal m : String) : Bool :=
  decide (m ≠ optimal ∧ m ∈ getAvailableModels st ∧
          (fitsWithinLimits estimate m).fits)

/-- The fallback loop of `reviewCode`: walk `fallbackModels`, skipping
ineligible candidates without calling them; call each eligible candidate
until one succeeds; raise the terminal error when the list is exhausted.
Also returns the models actually called. -/
def fallbackGo (st : ProviderState)
    (oracle : String → Except ProviderError ModelResponse)
    (estimate : TokenEstimate) (optimal filename : String) :
    List String → List String × Except ProviderError ModelResponse
  | [] => ([], .error (.generic ("All suitable models failed for " ++ filename)))
  | m :: rest =>
      if eligibleFallback st estimate optimal m then
        match oracle m with
        | .ok r => ([m], .ok r)
        | .error _ =>
            let tail := fallbackGo st oracle estimate optimal filename rest
            (m :: tail.1, tail.2)
      else fallbackGo st oracle estimate optimal filename rest

/-- Body of `reviewCode` after its `const estimate = ...` line: select
the optimal model for the (already computed) estimate, call it, and on
failure run the fallback loop. -/
def reviewCodeWithEstimate (config : ModelConfig) (st : ProviderState)
    (oracle : String → Except ProviderError ModelResponse)
    (request : ReviewRequest) (estimate : TokenEstimate) :
    List String × Except ProviderError ModelResponse :=
  match getOptimalModelWithTokens config st request.template estimate with
  | .error e => ([], .error (.generic e))
  | .ok optimal =>
      match oracle optimal with
      | .ok r => ([optimal], .ok r)
      | .error _ =>
          let tail :=
            fallbackGo st oracle estimate optimal request.filename
              config.fallbackModels
          (optimal :: tail.1, tail.2)

/-- multi-model-provider.ts `reviewCode`, instrumented with the list of
model keys actually attempted: estimate the request, then run the
selection and fallback logic. -/
def reviewCodeT (config : ModelConfig) (st : ProviderState)
    (oracle : String → Except ProviderError ModelResponse)
    (request : ReviewRequest) : List String × Except ProviderError ModelResponse :=
  reviewCodeWithEstimate config st oracle request
    (estimateTokens request.code request.systemPrompt request.filename
      request.template)

/-- Specification-side candidate runner (for the refinement statement of
the fallback-ordering claim): call the candidates in order, return the
first success, or `failure` after calling every one. -/
def firstSuccess (oracle : String → Except ProviderError ModelResponse)
    (failure : ProviderError) :
    List String → List String × Except ProviderError ModelResponse
  | [] => ([], .error failure)
  | m :: rest =>
      match oracle m with
      | .ok r => ([m], .ok r)
      | .error _ =>
          let tail := firstSuccess oracle failure rest
          (m :: tail.1, tail.2)

/-! ## Multi-model reviewer (src/core/multi-model-reviewer.ts)

`reviewFile` catches every error of `reviewCode`.  API errors (a
`status` field) and the three network error codes reach `ErrorHandler`
routines that call `process.exit` (modelled as `.exited`); every other
error is downgraded to a warning and converted into a returned
placeholder result with `hasIssues: false` and `modelUsed: 'error'`.
Comparison mode is not modelled (no claim exercises it); the reviewer
below is the `comparisonMode = false` path. -/

/-- multi-model-reviewer.ts `MultiModelReviewResult`
(the optional `comparisonResults` field is omitted with comparison
mode). -/
structure MultiModelReviewResult where
  filePath : String
  template : String
  hasIssues : Bool
  feedback : String
  tokensUsed : TokensUsed
  timestamp : Int
  authMethod : String
  modelUsed : String
  responseTime : Int
deriving DecidableEq, Repr

/-- multi-model-reviewer.ts `detectIssues` keyword vocabulary (distinct
from the single-model reviewer's). -/
def mmIssueKeywords : List String :=
  ["issue", "problem", "error", "warning", "bug", "vulnerability",
   "security", "performance", "improvement", "consider", "should",
   "could", "might", "potential", "risk", "concern"]

/-- multi-model-reviewer.ts `detectIssues`. -/
def mmDetectIssues (feedback : String) : Bool :=
  mmIssueKeywords.any (fun kw => containsSubstring (toLowerAscii feedback) kw)

/-- Message of a provider error (`error.message`). -/
def errMessage : ProviderError → String
  | .apiError _ => "API error"
  | .netError code => code
  | .generic msg => msg

/-- Outcome of `MultiModelReviewer.reviewFile`: either the process was
terminated by an `ErrorHandler` routine (`process.exit`), or a result
was returned. -/
inductive MMOutcome where
  | exited
  | done (r : MultiModelReviewResult)
deriving DecidableEq, Repr

/-- The `ReviewRequest` assembled by `MultiModelReviewer.reviewFile`
from a scanned file and a template. -/
def mmRequestOf (file : FileInfo) (templateName systemPrompt : String) :
    ReviewRequest :=
  { code := file.content, filename := file.relativePath,
    systemPrompt := systemPrompt, template := templateName }

/-- The placeholder result built by the catch branch of `reviewFile`
(source comment: return a fallback result instead of throwing). -/
def mmFallbackResult (file : FileInfo) (templateName : String) (msg : String)
    (now : Int) : MultiModelReviewResult :=
  { filePath := file.relativePath, template := templateName,
    hasIssues := false, feedback := "❌ Review failed: " ++ msg,
    tokensUsed := { input := 0, output := 0 }, timestamp := now,
    authMethod := "multi-model", modelUsed := "error", responseTime := 0 }

/-- multi-model-reviewer.ts `reviewFile` in non-comparison mode: run
`reviewCode`; on success build the result (scanning the feedback for
issue keywords); on error dispatch as the source's catch does — API
errors and `ECONNREFUSED`/`ENOTFOUND`/`ETIMEDOUT` exit the process,
anything else returns the placeholder. -/
def reviewFileMM (config : ModelConfig) (st : ProviderState)
    (oracle : String → Except ProviderError ModelResponse)
    (file : FileInfo) (templateName systemPrompt : String) (now : Int) :
    MMOutcome :=
  let request := mmRequestOf file templateName systemPrompt
  match (reviewCodeT config st oracle request).2 with
  | .ok mr =>
      .done { filePath := request.filename, template := templateName,
              hasIssues := mmDetectIssues mr.content, feedback := mr.content,
              tokensUsed := mr.tokensUsed, timestamp := now,
              authMethod := "multi-model", modelUsed := mr.model,
              responseTime := mr.responseTime }
  | .error e =>
      match e with
      | .apiError _ => .exited
      | .netError code =>
          if code = "ECONNREFUSED" ∨ code = "ENOTFOUND" ∨ code = "ETIMEDOUT" then
            .exited
          else .done (mmFallbackResult file templateName (errMessage e) now)
      | .generic msg => .done (mmFallbackResult file templateName msg now)

/-- Wave splitting of the batch loops (`for (let i = 0; i < n; i +=
concurrency)` with `slice(i, i + concurrency)`), fuel-driven; the
`concurrency = 0` case, on which the source loop does not terminate, is
cut off by the fuel and exercised by no claim. -/
def chunksGo (conc : Nat) : Nat → List FileInfo → List (List FileInfo)
  | 0, _ => []
  | fuel + 1, l =>
      if l.isEmpty then []
      else l.take conc :: chunksGo conc fuel (l.drop conc)

/-- The waves of a file list at a given concurrency. -/
def chunks (conc : Nat) (l : List FileInfo) : List (List FileInfo) :=
  chunksGo conc l.length l

/-- Wave loop of `MultiModelReviewer.reviewMultipleFiles`: per wave,
review every file; the per-file catch is dead code (`reviewFile` returns
rather than throws), so each wave contributes exactly its returned
results; a `process.exit` aborts the whole run (`none`). -/
def runMMWaves (config : ModelConfig) (st : ProviderState)
    (oracle : String → Except ProviderError ModelResponse)
    (templateName systemPrompt : String) (now : Int) :
    List (List FileInfo) → Option (List MultiModelReviewResult)
  | [] => some []
  | batch :: rest =>
      let outcomes := batch.map
        (fun f => reviewFileMM config st oracle f templateName systemPrompt now)
      if outcomes.contains MMOutcome.exited then none
      else
        (runMMWaves config st oracle templateName systemPrompt now rest).map
          (fun tail =>
            outcomes.filterMap
              (fun o => match o with
                        | .done r => some r
                        | .exited => none) ++ tail)

/-- multi-model-reviewer.ts `reviewMultipleFiles` (non-comparison mode):
the smart-mode banner calls `getOptimalModel` up front — if that throws
the whole run aborts — then the bounded-concurrency wave loop runs. -/
def reviewMultipleFilesMM (config : ModelConfig) (st : ProviderState)
    (oracle : String → Except ProviderError ModelResponse)
    (files : List FileInfo) (templateName systemPrompt : String)
    (conc : Nat) (now : Int) : Option (List MultiModelReviewResult) :=
  match getOptimalModel config st templateName with
  | .error _ => none
  | .ok _ =>
      runMMWaves config st oracle templateName systemPrompt now
        (chunks conc files)

/-! ## Single-model batch runner (reviewer.ts `CodeReviewer`)

`reviewFile` is abstracted by an oracle `FileInfo → Option RawReview`
(`none` = the review throws); on success the reviewer builds the
`ReviewResult` record itself, scanning the feedback with
`detectIssues`.  `reviewMultipleFiles` is additionally instrumented with
an event trace recording, in program order: emission of each cache-hit
result, the start of each wave call, each call's completion or failure,
the append of a settled wave's results, and (in the surrounding
pipeline) each persistence of the session. -/

/-- What a successful provider round trip of `CodeReviewer.reviewFile`
yields before the result record is assembled. -/
structure RawReview where
  feedback : String
  inputTokens : Nat
  outputTokens : Nat
  timestamp : Int
deriving DecidableEq, Repr

/-- Assembly of the `ReviewResult` record by `reviewFile`. -/
def buildResult (file : FileInfo) (templateName authMethod : String)
    (raw : RawReview) : ReviewResult :=
  { filePath := file.relativePath, template := templateName,
    feedback := raw.feedback,
    tokensUsed := { input := raw.inputTokens, output := raw.outputTokens },
    timestamp := raw.timestamp, hasIssues := detectIssues raw.feedback,
    authMethod := authMethod }

/-- Observable events of one batch run. -/
inductive RunEvent where
  | emitHit (r : ReviewResult)
  | issue (path : String)
  | fileDone (r : ReviewResult)
  | fileFailed (path : String)
  | waveAppend (rs : List ReviewResult)
  | persist (sessionId : String)
deriving DecidableEq, Repr

/-- Is the event the completion (success or failure) of one in-wave
call? -/
def isSettleEvent : RunEvent → Bool
  | .fileDone _ => true
  | .fileFailed _ => true
  | _ => false

/-- The result carried by a successful completion event. -/
def doneResult : RunEvent → Option ReviewResult
  | .fileDone r => some r
  | _ => none

/-- Is the event a session persistence? -/
def isPersistEvent : RunEvent → Bool
  | .persist _ => true
  | _ => false

/-- Is the event the start of a wave call? -/
def isIssueEvent : RunEvent → Bool
  | .issue _ => true
  | _ => false

/-- Completion of one in-wave call (the body of the wave's `map` of
promises) as the per-file `try`/`catch` is written: a success is cached
and streamed, a thrown review is caught (`ErrorHandler.handleFileError`,
which returns) and reported.  In the shipped code that catch branch is
unreachable: `reviewFile` routes every failure to an exiting
`ErrorHandler` routine rather than throwing (see `waveStepX` below for
the faithful failure behaviour); the catch branch here is exercised by
no settled claim — every scenario a claim evaluates on this step has
all reviews succeed. -/
def waveStep (oracle : FileInfo → Option RawReview)
    (hashFn : String → String) (statFile : FileInfo → Option Int)
    (templateName authMethod : String) (now : Int)
    (acc : List ReviewResult × Cache × List RunEvent) (f : FileInfo) :
    List ReviewResult × Cache × List RunEvent :=
  match oracle f with
  | some raw =>
      let r := buildResult f templateName authMethod raw
      (acc.1 ++ [r],
       cacheResult hashFn statFile now acc.2.1 f templateName r,
       acc.2.2 ++ [RunEvent.fileDone r])
  | none => (acc.1, acc.2.1, acc.2.2 ++ [RunEvent.fileFailed f.relativePath])

def processWave (oracle : FileInfo → Option RawReview)
    (hashFn : String → String) (statFile : FileInfo → Option Int)
    (templateName authMethod : String) (now : Int)
    (cache : Cache) (batch : List FileInfo) :
    List ReviewResult × Cache × List RunEvent :=
  let issues := batch.map (fun f => RunEvent.issue f.relativePath)
  let folded := batch.foldl
    (waveStep oracle hashFn statFile templateName authMethod now)
    ([], cache, [])
  (folded.1, folded.2.1,
   issues ++ folded.2.2 ++ [RunEvent.waveAppend folded.1])

/-- The wave loop: process the waves in order, threading the result
cache, concatenating results and events. -/
def runWaves (oracle : FileInfo → Option RawReview)
    (hashFn : String → String) (statFile : FileInfo → Option Int)
    (templateName authMethod : String) (now : Int) :
    List (List FileInfo) → Cache → List ReviewResult × Cache × List RunEvent
  | [], cache => ([], cache, [])
  | batch :: rest, cache =>
      let wave := processWave oracle hashFn statFile templateName authMethod now
        cache batch
      let tail := runWaves oracle hashFn statFile templateName authMethod now
        rest wave.2.1
      (wave.1 ++ tail.1, tail.2.1, wave.2.2 ++ tail.2.2)

/-- reviewer.ts `CodeReviewer.reviewMultipleFiles`: partition the files
through the cache, emit every cache-hit result first (result list and
progress callback), then run the cache misses in bounded-concurrency
waves; at the end the cache is flushed to disk (`finalize`, not an
observable event here). -/
def reviewMultipleFiles (oracle : FileInfo → Option RawReview)
    (hashFn : String → String) (statFile : FileInfo → Option Int)
    (files : List FileInfo) (templateName authMethod : String)
    (conc : Nat) (now : Int) (cache : Cache) :
    List ReviewResult × Cache × List RunEvent :=
  let parts := separateFiles hashFn statFile cache files templateName
  let hitResults := parts.1.map (fun hr => hr.2)
  let fresh := runWaves oracle hashFn statFile templateName authMethod now
    (chunks conc parts.2.1) parts.2.2
  (hitResults ++ fresh.1, fresh.2.1,
   hitResults.map RunEvent.emitHit ++ fresh.2.2)

/-- One template run of the batch pipeline (agents/code-review.ts main
loop body): `reviewMultipleFiles`, then a single `markFilesCompleted`
on the returned results — the only point at which the session store is
written during the run. -/
def runTemplatePipeline (oracle : FileInfo → Option RawReview)
    (hashFn : String → String) (statFile : FileInfo → Option Int)
    (store : SessionStore) (session : ReviewSession)
    (files : List FileInfo) (templateName authMethod : String)
    (conc : Nat) (now : Int) (nowSession : Nat) (cache : Cache) :
    List ReviewResult × Cache × ReviewSession × SessionStore × List RunEvent :=
  let run := reviewMultipleFiles oracle hashFn statFile files templateName
    authMethod conc now cache
  let marked := markFilesCompleted store session run.1 nowSession
  (run.1, run.2.1, marked.1, marked.2,
   run.2.2 ++ [RunEvent.persist marked.1.id])

/-- Shape grammar of a miss-wave event trace: a sequence of waves, each
consisting of at most `conc` issued calls, their completions, and the
append of exactly the completed wave's successful results. -/
inductive WaveShaped (conc : Nat) : List RunEvent → Prop where
  | nil : WaveShaped conc []
  | wave (paths : List String) (dones : List RunEvent) (rest : List RunEvent) :
      paths.length ≤ conc →
      (∀ e ∈ dones, isSettleEvent e = true) →
      WaveShaped conc rest →
      WaveShaped conc
        (paths.map RunEvent.issue ++ dones ++
         (RunEvent.waveAppend (dones.filterMap doneResult) :: rest))

/-- One in-wave call with the shipped failure behaviour.
`CodeReviewer.reviewFile` (`reviewWithClaudeCode` / `reviewWithAPI`)
routes every failure to `ErrorHandler.handleNetworkError`,
`handleAnthropicAPIError`, `handleClaudeCodeError` or
`handleGenericError`; all four are typed `never` and every branch of
them ends in `process.exit(1)`, so `reviewFile` never throws — a failed
review terminates the process and the per-file catch
(`handleFileError`) is unreachable.  Here: on success the result is
appended and cached; on failure the process exits (`none`), and an
already-exited run stays exited. -/
def waveStepX (oracle : FileInfo → Option RawReview)
    (hashFn : String → String) (statFile : FileInfo → Option Int)
    (templateName authMethod : String) (now : Int)
    (acc : Option (List ReviewResult × Cache)) (f : FileInfo) :
    Option (List ReviewResult × Cache) :=
  match acc with
  | none => none
  | some (rs, cache) =>
      match oracle f with
      | some raw =>
          let r := buildResult f templateName authMethod raw
          some (rs ++ [r],
                cacheResult hashFn statFile now cache f templateName r)
      | none => none

/-- The wave loop with the shipped failure behaviour: waves in order,
threading results and the result cache; a failure anywhere exits the
process — no later call is made and no result list is ever returned. -/
def runWavesX (oracle : FileInfo → Option RawReview)
    (hashFn : String → String) (statFile : FileInfo → Option Int)
    (templateName authMethod : String) (now : Int) :
    List (List FileInfo) → Option (List ReviewResult × Cache) →
      Option (List ReviewResult × Cache)
  | [], acc => acc
  | batch :: rest, acc =>
      runWavesX oracle hashFn statFile templateName authMethod now rest
        (batch.foldl
          (waveStepX oracle hashFn statFile templateName authMethod now) acc)

/-- `CodeReviewer.reviewMultipleFiles` with the shipped failure
behaviour: partition through the cache, start from the cache-hit
results, then run the miss waves; `some` (the hit results followed by
the built results of the successful miss reviews, with the final cache)
only if every review succeeds, `none` (process exited, nothing
returned) as soon as any review fails. -/
def reviewMultipleFilesX (oracle : FileInfo → Option RawReview)
    (hashFn : String → String) (statFile : FileInfo → Option Int)
    (files : List FileInfo) (templateName authMethod : String)
    (conc : Nat) (now : Int) (cache : Cache) :
    Option (List ReviewResult × Cache) :=
  let parts := separateFiles hashFn statFile cache files templateName
  runWavesX oracle hashFn statFile templateName authMethod now
    (chunks conc parts.2.1)
    (some (parts.1.map (fun hr => hr.2), parts.2.2))

/-! ## Concrete instances

Closed scenarios used to evaluate the embedded code at specific inputs
(counterexamples, bug demonstrations, witnesses). -/

/-- A demonstration content-hash function (the hash is an opaque pure
function parameter; any injective-on-the-inputs choice exercises the
cache logic). -/
def hashDemo (s : String) : String := "#" ++ s

/-- A successful raw review round trip used by concrete batch runs. -/
def rawOk : RawReview :=
  { feedback := "ok", inputTokens := 1, outputTokens := 1, timestamp := 0 }

/-- Scanned file `a.ts`. -/
def fileA : FileInfo :=
  { path := "src/a.ts", relativePath := "a.ts", size := 1,
    extension := ".ts", content := "x" }

/-- Scanned file `b.ts`. -/
def fileB : FileInfo :=
  { path := "src/b.ts", relativePath := "b.ts", size := 1,
    extension := ".ts", content := "y" }

/-- Scanned file `c.ts`. -/
def fileC : FileInfo :=
  { path := "src/c.ts", relativePath := "c.ts", size := 1,
    extension := ".ts", content := "z" }

/-- Provider state with Claude Code and a Gemini key (all four models
available). -/
def stAll : ProviderState :=
  { useClaudeCode := true, anthropic := false, gemini := true }

/-- Provider state with Claude only (no Gemini key). -/
def stClaude : ProviderState :=
  { useClaudeCode := true, anthropic := false, gemini := false }

/-- A model configuration with primary `claude-sonnet` and fallback
chain `claude-haiku`, `gemini-pro` (the chain `[A, B, C]` of the
fallback-ordering scenario). -/
def cfgABC : ModelConfig :=
  { primaryModel := "claude-sonnet",
    fallbackModels := ["claude-haiku", "gemini-pro"],
    templateMappings := [], comparisonMode := false,
    maxRetries := 3, timeout := 60000 }

/-- A model configuration whose fallback list carries all non-primary
models. -/
def cfgAllFallbacks : ModelConfig :=
  { primaryModel := "claude-sonnet",
    fallbackModels := ["claude-haiku", "gemini-pro", "gemini-flash"],
    templateMappings := [], comparisonMode := false,
    maxRetries := 4, timeout := 60000 }

/-- The response of `gemini-pro` (model C) in the fallback scenario. -/
def respC : ModelResponse :=
  { content := "no problems found", model := "gemini-1.5-pro",
    provider := "gemini", tokensUsed := { input := 2, output := 2 },
    responseTime := 10 }

/-- The response of `gemini-flash` in the fallback scenario. -/
def respF : ModelResponse :=
  { content := "all good", model := "gemini-1.5-flash",
    provider := "gemini", tokensUsed := { input := 1, output := 1 },
    responseTime := 5 }

/-- Oracle of the fallback-ordering scenario: A (`claude-sonnet`) and B
(`claude-haiku`) fail, C (`gemini-pro`) succeeds; the un-configured
fourth model `gemini-flash` also succeeds. -/
def oracleAB_fail (m : String) : Except ProviderError ModelResponse :=
  if m = "claude-sonnet" then .error (.generic "A down")
  else if m = "claude-haiku" then .error (.generic "B down")
  else if m = "gemini-pro" then .ok respC
  else if m = "gemini-flash" then .ok respF
  else .error (.generic "unknown model")

/-- Oracle under which every model call fails with a plain error. -/
def oracleAllFail (_ : String) : Except ProviderError ModelResponse :=
  .error (.generic "provider unavailable")

/-- The review request of the fallback-ordering scenario: a tiny
security review. -/
def reqSmall : ReviewRequest :=
  { code := "x", filename := "a.ts", systemPrompt := "p",
    template := "security" }

/-- A system prompt of 800004 characters (the only operation the
estimator performs on the prompt is reading its length). -/
def bigPrompt : String := String.mk (List.replicate 800004 'a')

/-- The review request whose estimate exceeds every Claude input
ceiling: tiny code, huge rendered system prompt. -/
def reqHuge : ReviewRequest :=
  { code := "x", filename := "f", systemPrompt := bigPrompt,
    template := "security" }

/-- The token estimate of `reqHuge`, spelled out. -/
def estHuge : TokenEstimate :=
  { inputTokens := 200053, outputTokens := 204, totalTokens := 200257,
    complexity := .high, recommendedModel := "claude-sonnet" }

/-- The request timestamps of the daily-ceiling scenario: 1001 requests
spaced 61 seconds apart (all within one day). -/
def c4times : List Int :=
  (List.range 1001).map (fun i : Nat => (61000 : Int) * (i : Int))

/-- Tracker state after recording the first `n` requests of the
daily-ceiling scenario (100 tokens each). -/
def c4stateN (n : Nat) : TokenTracker :=
  (((List.range n).map (fun i : Nat => (61000 : Int) * (i : Int))).foldl
    (fun t time => recordUsage t time 100 0)) TokenTracker.init

/-- Tracker state after recording all 1001 requests of `c4times`, 100
tokens each. -/
def c4state : TokenTracker := c4stateN 1001

/-- Observation time of the daily-ceiling scenario (half a second after
the 1001st request). -/
def c4now : Int := 61000500

/-- A stored review result used to populate demo cache entries and
sessions. -/
def resPrev : ReviewResult :=
  { filePath := "a.ts", template := "quality", feedback := "fine",
    tokensUsed := { input := 1, output := 1 }, timestamp := 0,
    hasIssues := false, authMethod := "claude-code" }

/-- A cache entry for `(a.ts, quality)` whose stored hash is the hash of
the file's current content and whose stored mtime (42) equals the
file's current on-disk mtime. -/
def entryFresh : CacheEntry :=
  { fileHash := hashDemo "x", filePath := "a.ts", template := "quality",
    result := resPrev, cachedAt := 0, fileSize := 1, lastModified := 42 }

/-- A cache holding exactly `entryFresh`. -/
def cacheFresh : Cache := [(cacheKey "a.ts" "quality", entryFresh)]

/-- The on-disk state of the freshness scenario: `src/a.ts` exists with
mtime 42 (what `statSync` would report if it were called with the
file's actual path). -/
def diskFresh (p : String) : Option Int :=
  if p = "src/a.ts" then some 42 else none

/-- Start options of a first (non-resuming) invocation. -/
def optsFresh : StartOptions :=
  { outputFormat := "terminal", outputFile := none, noCache := false,
    resume := false }

/-- Start options of a resuming invocation. -/
def optsResume : StartOptions :=
  { outputFormat := "terminal", outputFile := none, noCache := false,
    resume := true }

/-- Creation time of the first invocation of the resume scenario. -/
def tFirst : Nat := 1700000000000

/-- Creation time of the second (resuming) invocation, one millisecond
later. -/
def tSecond : Nat := 1700000000001

/-- First invocation of the resume scenario: a fresh session over
`[a.ts, b.ts]`. -/
def resumeInv1 : ReviewSession × SessionStore :=
  startSession [] [fileA, fileB] "quality" "src" optsFresh tFirst

/-- The store after the first invocation completed half its files
(marked `a.ts` completed, which re-persisted the session). -/
def resumeHalf : ReviewSession × SessionStore :=
  markFilesCompleted resumeInv1.2 resumeInv1.1 [resPrev] (tFirst + 5)

/-- Second invocation of the resume scenario: same target path and
category, `resume = true`, over the same scanned file list. -/
def resumeInv2 : ReviewSession × SessionStore :=
  startSession resumeHalf.2 [fileA, fileB] "quality" "src" optsResume tSecond

/-- Oracle under which every single-model review succeeds with `rawOk`. -/
def oracleOk (_ : FileInfo) : Option RawReview := some rawOk

/-- The first invocation's session of the wave-checkpoint scenario
(three files, none completed). -/
def waveSession : ReviewSession × SessionStore :=
  startSession [] [fileA, fileB, fileC] "quality" "src" optsFresh tFirst

/-- The full pipeline run of the wave-checkpoint scenario: three files,
concurrency 2 (two waves), empty cache, every review succeeding. -/
def wavePipeline :
    List ReviewResult × Cache × ReviewSession × SessionStore × List RunEvent :=
  runTemplatePipeline oracleOk hashDemo statAbsolutePath waveSession.2
    waveSession.1 [fileA, fileB, fileC] "quality" "claude-code" 2 0
    (tFirst + 9) []

/-- The event trace of the wave-checkpoint scenario. -/
def waveTrace : List RunEvent := wavePipeline.2.2.2.2

/-- Single-model review oracle under which `a.ts` succeeds and every
other review throws. -/
def oracleBfail (f : FileInfo) : Option RawReview :=
  if f.relativePath = "a.ts" then some rawOk else none

/-! ## Theorems -/

theorem cacheGet_delete_self (cache : Cache) (key : String) :
    cacheGet (cacheDelete cache key) key = none := by
  unfold cacheGet cacheDelete
  rw [List.find?_eq_none.mpr]
  · rfl
  · intro x hx
    have hp := List.of_mem_filter hx
    simp only [Bool.not_eq_true'] at hp
    simp [hp]

theorem find?_map_set (cache : Cache) (key : String) (e : CacheEntry) :
    (cache.map (fun kv => if kv.1 == key then (key, e) else kv)).find?
        (fun kv => kv.1 == key)
      = if cache.any (fun kv => kv.1 == key) then some (key, e) else none := by
  induction cache with
  | nil => rfl
  | cons kv rest ih =>
      by_cases h : kv.1 = key
      · simp [List.find?, h]
      · have hb : (kv.1 == key) = false := by simp [h]
        have hhead : (if kv.1 == key then ((key, e) : String × CacheEntry) else kv)
            = kv := by simp [hb]
        rw [List.map_cons, hhead, List.find?_cons_of_neg _ (by simp [hb]), ih,
            List.any_cons, hb, Bool.false_or]

theorem cacheGet_set_self (cache : Cache) (key : String) (e : CacheEntry) :
    cacheGet (cacheSet cache key e) key = some e := by
  unfold cacheGet cacheSet
  by_cases h : cache.any (fun kv => kv.1 == key)
  · rw [if_pos h, find?_map_set, if_pos h]
    rfl
  · rw [if_neg h]
    have hnone : cache.find? (fun kv => kv.1 == key) = none := by
      rw [List.find?_eq_none]
      intro x hx hpx
      exact h (List.any_of_mem hx hpx)
    rw [List.find?_append, hnone]
    simp [List.find?]

/-- C9.  For any file list and category, `separateFiles` places every
input file in exactly one of the hit and miss lists: for every file, its
multiplicity among the hits plus its multiplicity among the misses
equals its multiplicity in the input. -/
theorem partition_covers_each_file_once (hashFn : String → String)
    (statFile : FileInfo → Option Int) (cache : Cache) (files : List FileInfo)
    (template : String) (f : FileInfo) :
    ((separateFiles hashFn statFile cache files template).1.map Prod.fst).count f
      + (separateFiles hashFn statFile cache files template).2.1.count f
      = files.count f := by
  induction files generalizing cache with
  | nil => simp [separateFiles]
  | cons g rest ih =>
      simp only [separateFiles]
      rcases hg : (getCached hashFn statFile cache g template).1 with _ | r
      · simp only [hg, List.count_cons, List.map]
        rw [← ih ((getCached hashFn statFile cache g template).2)]
        omega
      · simp only [hg, List.count_cons, List.map_cons, List.count_cons]
        rw [← ih ((getCached hashFn statFile cache g template).2)]
        omega

/-- C7 (bug demonstration).  A cache entry whose stored hash equals the
hash of the file's current content and whose stored modification time
(42) equals the file's actual on-disk modification time is nevertheless
deleted and reported as a miss: the mtime check stats
`file.absolutePath`, a field `FileInfo` does not have, so the call
throws and the catch branch evicts the entry.  No entry is ever served
as a hit. -/
theorem fresh_cache_entry_still_missed :
    entryFresh.fileHash = hashDemo fileA.content ∧
    diskFresh fileA.path = some entryFresh.lastModified ∧
    isCached hashDemo statAbsolutePath cacheFresh fileA "quality" = (false, []) ∧
    getCached hashDemo statAbsolutePath cacheFresh fileA "quality" = (none, []) := by
  refine ⟨by decide, by decide, by decide, by decide⟩

/-- C10.  If a cache entry exists for the key but the `statSync` call
fails (vanished file — and, in the shipped code, every call), the lookup
deletes the entry and reports a miss instead of propagating the error,
and `cacheResult` still succeeds, falling back to `Date.now()` for the
stored modification time. -/
theorem stat_failure_is_miss_never_raises (hashFn : String → String)
    (statFile : FileInfo → Option Int) (cache : Cache) (file : FileInfo)
    (template : String) (entry : CacheEntry) (now : Int) (result : ReviewResult)
    (hstat : statFile file = none)
    (hentry : cacheGet cache (cacheKey file.relativePath template) = some entry) :
    isCached hashFn statFile cache file template
        = (false, cacheDelete cache (cacheKey file.relativePath template)) ∧
    cacheGet (isCached hashFn statFile cache file template).2
        (cacheKey file.relativePath template) = none ∧
    (getCached hashFn statFile cache file template).1 = none ∧
    cacheGet (cacheResult hashFn statFile now cache file template result)
        (cacheKey file.relativePath template)
      = some { fileHash := hashFn file.content, filePath := file.relativePath,
               template := template, result := result, cachedAt := now,
               fileSize := file.size, lastModified := now } := by
  have hic : isCached hashFn statFile cache file template
      = (false, cacheDelete cache (cacheKey file.relativePath template)) := by
    simp only [isCached]
    rw [hentry]
    dsimp only
    by_cases hh : entry.fileHash ≠ hashFn file.content
    · rw [if_pos hh]
    · rw [if_neg hh, hstat]
  refine ⟨hic, ?_, ?_, ?_⟩
  · rw [hic]
    exact cacheGet_delete_self cache (cacheKey file.relativePath template)
  · simp only [getCached]
    rw [hentry]
    simp [hic]
  · simp only [cacheResult]
    rw [hstat]
    exact cacheGet_set_self cache (cacheKey file.relativePath template) _

theorem stat_failure_is_miss_never_raises_witness :
    statAbsolutePath fileA = none ∧
    cacheGet cacheFresh (cacheKey fileA.relativePath "quality") = some entryFresh ∧
    isCached hashDemo statAbsolutePath cacheFresh fileA "quality"
      = (false, cacheDelete cacheFresh (cacheKey fileA.relativePath "quality")) :=
  ⟨rfl, by decide,
   (stat_failure_is_miss_never_raises hashDemo statAbsolutePath cacheFresh fileA
      "quality" entryFresh 0 resPrev rfl (by decide)).1⟩

/-- C2 (bug demonstration).  One invocation starts a session over
`[a.ts, b.ts]` at time `tFirst`, completes `a.ts` (the checkpoint is
persisted: the stored session holds the completed half and the pending
half).  A second invocation with `resume = true`, the same target path
`src` and the same category `quality` arrives one millisecond later: the
id it derives embeds its own `Date.now()`, differs from the stored id,
so the load misses and a brand-new session is created — its pending list
is the full scanned list and its completed results are empty. -/
theorem resume_never_finds_persisted_session :
    getCompletedResults resumeHalf.1 = [resPrev] ∧
    getRemainingFiles resumeHalf.1 = [fileB] ∧
    storeGet resumeHalf.2 resumeInv1.1.id = some resumeHalf.1 ∧
    resumeInv2.1.id ≠ resumeInv1.1.id ∧
    getRemainingFiles resumeInv2.1 = [fileA, fileB] ∧
    getCompletedResults resumeInv2.1 = [] := by
  refine ⟨by decide, by decide, by decide, by decide, by decide, by decide⟩

theorem c4stateN_closed (n : Nat) :
    c4stateN (n + 1) =
      { usage := { inputTokens := 100 * (n + 1), outputTokens := 0,
                   totalTokens := 100 * (n + 1) },
        requestTimes := [(61000 : Int) * n],
        tokenUsageMinute := [100] } := by
  induction n with
  | zero => decide
  | succ k ih =>
      have hstep : c4stateN (k + 1 + 1)
          = recordUsage (c4stateN (k + 1)) ((61000 : Int) * (k + 1)) 100 0 := by
        simp [c4stateN, List.range_succ]
      rw [hstep, ih]
      have hc1 : (decide ((61000 : Int) * ((k : Int) + 1) - 60000 < 61000 * (k : Int)))
          = false := by
        rw [decide_eq_false_iff_not]
        omega
      have hc2 : (decide ((61000 : Int) * ((k : Int) + 1) - 60000
          < 61000 * ((k : Int) + 1))) = true := by
        rw [decide_eq_true_eq]
        omega
      simp only [recordUsage, List.cons_append, List.nil_append, List.filter_cons,
        List.filter_nil, hc1, hc2]
      simp only [Bool.false_eq_true, if_false, if_true, List.length_cons,
        List.length_nil, List.take, TokenTracker.mk.injEq, TokenUsageTotals.mk.injEq]
      push_cast
      refine ⟨⟨by omega, trivial, by omega⟩, rfl, trivial⟩

/-- C4 (counterexample).  1001 requests are recorded over the trailing
24 hours — one more than the tracker's own per-day request ceiling of
1000 — yet `canMakeRequest` returns `allowed: true` with no wait time:
the admission check consults only the trailing 60-second logs (pruned to
one minute on every record), and no per-day ceiling is compared
anywhere in it. -/
theorem tracker_ignores_daily_request_ceiling :
    c4times.length = 1001 ∧
    (∀ t ∈ c4times, c4now - 86400000 < t ∧ t ≤ c4now) ∧
    ttRequestsPerDay < c4times.length ∧
    c4state.usage.totalTokens = 100100 ∧
    canMakeRequest c4state c4now 100
      = { allowed := true, waitTime := none, reason := none } := by
  have hc4t : c4times
      = (List.range 1001).map (fun i : Nat => (61000 : Int) * (i : Int)) := rfl
  have hlen : c4times.length = 1001 := by
    rw [hc4t, List.length_map, List.length_range]
  have hclosed : c4state
      = { usage := { inputTokens := 100 * (1000 + 1), outputTokens := 0,
                     totalTokens := 100 * (1000 + 1) },
          requestTimes := [(61000 : Int) * (1000 : Nat)],
          tokenUsageMinute := [100] } := c4stateN_closed 1000
  refine ⟨hlen, ?_, ?_, ?_, ?_⟩
  · intro t ht
    rw [hc4t] at ht
    obtain ⟨i, hi, rfl⟩ := List.mem_map.mp ht
    have hi' : i < 1001 := List.mem_range.mp hi
    have hi1000 : (i : Int) ≤ 1000 := by exact_mod_cast Nat.lt_succ_iff.mp hi'
    have hi0 : (0 : Int) ≤ (i : Int) := Int.natCast_nonneg i
    constructor
    · show c4now - 86400000 < (61000 : Int) * i
      simp only [c4now]
      omega
    · show (61000 : Int) * i ≤ c4now
      simp only [c4now]
      nlinarith
  · rw [hlen]
    decide
  · rw [hclosed]
  · rw [hclosed]
    decide

/-- C4 (amended).  The tracker's admission check enforces only the
per-minute ceilings: whenever the trailing-minute request count and
token sum are within their per-minute limits, `canMakeRequest` allows
the request no matter what happened earlier in the day.  Daily ceilings
are enforced only by the status checker's `determineStatus`, against its
trailing-24-hour history, and there an exceeded daily request ceiling
yields `rate_limited` with no finite `nextAvailableIn`. -/
theorem daily_ceiling_only_in_status_checker :
    (∀ (t : TokenTracker) (now : Int) (est : Nat),
      (recentRequestTimes t now).length < ttRequestsPerMinute →
      recentTokenSum t now + est ≤ ttTokensPerMinute →
      canMakeRequest t now est
        = { allowed := true, waitTime := none, reason := none }) ∧
    (∀ (requests : List Int) (tokens : List (Int × Nat)) (limits : RateLimitCfg)
      (usage : StatusUsage) (now : Int) (d : Nat),
      limits.requestsPerDay = some d → d ≠ 0 →
      usage.requestsThisMinute < limits.requestsPerMinute →
      usage.tokensThisMinute < limits.tokensPerMinute →
      d ≤ usage.requestsToday →
      determineStatus requests tokens limits usage now
        = (.rate_limited, none)) := by
  constructor
  · intro t now est h1 h2
    simp only [canMakeRequest]
    rw [if_neg (by omega), if_neg (by omega)]
  · intro requests tokens limits usage now d hd hd0 h1 h2 h3
    simp only [determineStatus]
    rw [if_neg (by omega), if_neg (by omega), hd,
        if_pos (decide_eq_true ⟨hd0, h3⟩)]

theorem daily_ceiling_only_in_status_checker_witness :
    canMakeRequest TokenTracker.init 0 0
      = { allowed := true, waitTime := none, reason := none } ∧
    determineStatus [] []
        { requestsPerMinute := 5, tokensPerMinute := 40000,
          requestsPerDay := some 1000 }
        { requestsThisMinute := 0, tokensThisMinute := 0,
          requestsToday := 1000 } 0
      = (.rate_limited, none) :=
  ⟨daily_ceiling_only_in_status_checker.1 TokenTracker.init 0 0 (by decide)
     (by decide),
   daily_ceiling_only_in_status_checker.2 [] [] _ _ 0 1000 rfl (by decide)
     (by decide) (by decide) (by decide)⟩

theorem fallbackGo_eq_firstSuccess (st : ProviderState)
    (oracle : String → Except ProviderError ModelResponse)
    (estimate : TokenEstimate) (optimal filename : String) (ms : List String) :
    fallbackGo st oracle estimate optimal filename ms
      = firstSuccess oracle
          (.generic ("All suitable models failed for " ++ filename))
          (ms.filter (eligibleFallback st estimate optimal)) := by
  induction ms with
  | nil => rfl
  | cons m rest ih =>
      by_cases h : eligibleFallback st estimate optimal m
      · rw [List.filter_cons_of_pos h]
        simp only [fallbackGo, if_pos h, firstSuccess]
        cases oracle m with
        | ok r => rfl
        | error e => rw [ih]
      · rw [List.filter_cons_of_neg (by simpa using h)]
        simp only [fallbackGo, if_neg h]
        exact ih

/-- C5 (counterexample).  Fallback chain `[claude-sonnet, claude-haiku,
gemini-pro]` with A and B configured to fail and C to succeed, every
model available: `reviewCode` does not attempt A, B, C — the token
estimator recommends `gemini-flash` for the small request, so the one
and only model attempted is `gemini-flash`, whose result (not C's) is
returned. -/
theorem review_skips_chain_when_estimator_recommends :
    reviewCodeT cfgABC stAll oracleAB_fail reqSmall
      = (["gemini-flash"], .ok respF) ∧
    ["gemini-flash"] ≠ ["claude-sonnet", "claude-haiku", "gemini-pro"] ∧
    respF ≠ respC := by
  refine ⟨by decide, by decide, by decide⟩

/-- C5 (amended).  `review()` attempts first the token-optimal model
chosen by `getOptimalModelWithTokens` (not necessarily the head of the
configured chain), then each configured fallback model — in
configuration order — that is distinct from the first attempt, currently
available and fits the estimate; it returns the first success, and when
every attempted candidate fails it raises the terminal error after
attempting exactly that candidate list. -/
theorem review_is_first_success_over_candidates (config : ModelConfig)
    (st : ProviderState) (oracle : String → Except ProviderError ModelResponse)
    (request : ReviewRequest) (optimal : String)
    (hopt : getOptimalModelWithTokens config st request.template
        (estimateTokens request.code request.systemPrompt request.filename
          request.template) = .ok optimal) :
    reviewCodeT config st oracle request
      = firstSuccess oracle
          (.generic ("All suitable models failed for " ++ request.filename))
          (optimal :: config.fallbackModels.filter
            (eligibleFallback st
              (estimateTokens request.code request.systemPrompt request.filename
                request.template) optimal)) := by
  simp only [reviewCodeT, reviewCodeWithEstimate, hopt]
  cases h : oracle optimal with
  | ok r => simp [firstSuccess, h]
  | error e =>
      simp only [firstSuccess, h]
      rw [fallbackGo_eq_firstSuccess]

theorem review_is_first_success_over_candidates_witness :
    reviewCodeT cfgABC stAll oracleAB_fail reqSmall
      = firstSuccess oracleAB_fail
          (.generic ("All suitable models failed for " ++ reqSmall.filename))
          ("gemini-flash" :: cfgABC.fallbackModels.filter
            (eligibleFallback stAll
              (estimateTokens reqSmall.code reqSmall.systemPrompt
                reqSmall.filename reqSmall.template) "gemini-flash")) :=
  review_is_first_success_over_candidates cfgABC stAll oracleAB_fail reqSmall
    "gemini-flash" (by decide)

theorem bigPrompt_length : bigPrompt.length = 800004 := by
  show (String.mk (List.replicate 800004 'a')).length = 800004
  rw [String.length]
  exact List.length_replicate 800004 'a'

theorem estimateTokens_reqHuge :
    estimateTokens reqHuge.code reqHuge.systemPrompt reqHuge.filename
      reqHuge.template = estHuge := by
  show estimateTokens "x" bigPrompt "f" "security" = estHuge
  simp only [estimateTokens]
  rw [bigPrompt_length]
  decide

theorem fallbackGo_mem (st : ProviderState)
    (oracle : String → Except ProviderError ModelResponse)
    (estimate : TokenEstimate) (optimal filename m : String)
    (ms : List String)
    (hm : m ∈ (fallbackGo st oracle estimate optimal filename ms).1) :
    eligibleFallback st estimate optimal m = true := by
  induction ms with
  | nil => simp [fallbackGo] at hm
  | cons m' rest ih =>
      by_cases he : eligibleFallback st estimate optimal m'
      · simp only [fallbackGo, if_pos he] at hm
        cases ho : oracle m' with
        | ok r =>
            rw [ho] at hm
            simp at hm
            rw [hm]
            exact he
        | error e =>
            rw [ho] at hm
            simp at hm
            rcases hm with rfl | hm2
            · exact he
            · exact ih hm2
      · simp only [fallbackGo, if_neg he] at hm
        exact ih hm

theorem getOptimalModel_of_no_models (config : ModelConfig) (st : ProviderState)
    (template : String) (h : getAvailableModels st = []) :
    getOptimalModel config st template = .error "No models available" := by
  simp only [getOptimalModel, h]
  cases lookupMapping config.templateMappings template with
  | none =>
      cases smartMappings template with
      | none => simp
      | some pm => simp
  | some tm =>
      cases smartMappings template with
      | none => simp
      | some pm => simp

theorem optimal_unfitting_is_last_resort (config : ModelConfig)
    (st : ProviderState) (template : String) (est : TokenEstimate)
    (optimal : String)
    (hopt : getOptimalModelWithTokens config st template est = .ok optimal)
    (hfits : (fitsWithinLimits est optimal).fits = false) :
    getAvailableModels st ≠ [] ∧
    (getAvailableModels st).head? = some optimal ∧
    ∀ a ∈ getAvailableModels st, (fitsWithinLimits est a).fits = false := by
  simp only [getOptimalModelWithTokens] at hopt
  by_cases h1 : est.recommendedModel ∈ getAvailableModels st ∧
      (fitsWithinLimits est est.recommendedModel).fits
  · rw [if_pos h1] at hopt
    injection hopt with he
    rw [he] at h1
    rw [h1.2] at hfits
    cases hfits
  · rw [if_neg h1] at hopt
    cases hg : getOptimalModel config st template with
    | error e =>
        rw [hg] at hopt
        cases hopt
    | ok tc =>
        rw [hg] at hopt
        dsimp only at hopt
        by_cases h2 : (fitsWithinLimits est tc).fits
        · rw [if_pos h2] at hopt
          injection hopt with he
          rw [he] at h2
          rw [h2] at hfits
          cases hfits
        · rw [if_neg h2] at hopt
          cases hf : (getAvailableModels st).find?
              (fun mk => (fitsWithinLimits est mk).fits) with
          | some m' =>
              rw [hf] at hopt
              dsimp only at hopt
              injection hopt with he
              have := List.find?_some hf
              rw [he] at this
              rw [this] at hfits
              cases hfits
          | none =>
              rw [hf] at hopt
              dsimp only at hopt
              have hnil : getAvailableModels st ≠ [] := by
                intro hn
                rw [getOptimalModel_of_no_models config st template hn] at hg
                cases hg
              cases havl : getAvailableModels st with
              | nil => exact absurd havl hnil
              | cons a rest =>
                  rw [havl] at hopt
                  dsimp only at hopt
                  injection hopt with he
                  refine ⟨by simp, by simp [he], ?_⟩
                  intro x hx
                  rw [← havl] at hx
                  have hx' := List.find?_eq_none.mp hf x hx
                  simpa using hx'

/-- C6 (counterexample).  A security review of a tiny file with an
800004-character rendered system prompt: the input estimate (200053
tokens) exceeds every available model's ceiling, and `reviewCode` still
issues the call to `claude-sonnet` — a candidate for which
`fitsWithinLimits` returns `fits = false` — via the selector's last
resort branch. -/
theorem unfitting_candidate_still_attempted :
    "claude-sonnet" ∈ (reviewCodeT cfgABC stClaude oracleAllFail reqHuge).1 ∧
    (fitsWithinLimits
        (estimateTokens reqHuge.code reqHuge.systemPrompt reqHuge.filename
          reqHuge.template) "claude-sonnet").fits = false := by
  constructor
  · simp only [reviewCodeT]
    rw [estimateTokens_reqHuge]
    decide
  · rw [estimateTokens_reqHuge]
    decide


/-- C6 (amended).  Candidates that cannot fit the estimate are skipped
without being attempted, with one exception: when no available model
fits, the first available model is attempted anyway (the selector's
"let it fail gracefully" last resort).  Formally, any attempted model
that fails the fits-check must be the head of the available list, and
then every available model fails the fits-check. -/
theorem unfitting_skipped_except_last_resort (config : ModelConfig)
    (st : ProviderState) (oracle : String → Except ProviderError ModelResponse)
    (request : ReviewRequest) (m : String)
    (hm : m ∈ (reviewCodeT config st oracle request).1)
    (hfits : (fitsWithinLimits
        (estimateTokens request.code request.systemPrompt request.filename
          request.template) m).fits = false) :
    getAvailableModels st ≠ [] ∧
    (getAvailableModels st).head? = some m ∧
    ∀ a ∈ getAvailableModels st,
      (fitsWithinLimits
        (estimateTokens request.code request.systemPrompt request.filename
          request.template) a).fits = false := by
  simp only [reviewCodeT, reviewCodeWithEstimate] at hm
  cases hopt : getOptimalModelWithTokens config st request.template
      (estimateTokens request.code request.systemPrompt request.filename
        request.template) with
  | error e =>
      rw [hopt] at hm
      simp at hm
  | ok optimal =>
      rw [hopt] at hm
      dsimp only at hm
      cases ho : oracle optimal with
      | ok r =>
          rw [ho] at hm
          simp at hm
          rw [hm] at hfits ⊢
          exact optimal_unfitting_is_last_resort config st request.template _
            optimal hopt hfits
      | error e =>
          rw [ho] at hm
          simp at hm
          rcases hm with rfl | hm2
          · exact optimal_unfitting_is_last_resort config st request.template _
              m hopt hfits
          · have helig := fallbackGo_mem st oracle _ optimal request.filename m
              config.fallbackModels hm2
            simp only [eligibleFallback, decide_eq_true_eq] at helig
            rw [helig.2.2] at hfits
            cases hfits

theorem unfitting_skipped_except_last_resort_witness :
    (fitsWithinLimits
        (estimateTokens reqHuge.code reqHuge.systemPrompt reqHuge.filename
          reqHuge.template) "claude-sonnet").fits = false ∧
    getAvailableModels stClaude ≠ [] ∧
    (getAvailableModels stClaude).head? = some "claude-sonnet" ∧
    ∀ a ∈ getAvailableModels stClaude,
      (fitsWithinLimits
        (estimateTokens reqHuge.code reqHuge.systemPrompt reqHuge.filename
          reqHuge.template) a).fits = false := by
  have hfits : (fitsWithinLimits
      (estimateTokens reqHuge.code reqHuge.systemPrompt reqHuge.filename
        reqHuge.template) "claude-sonnet").fits = false := by
    rw [estimateTokens_reqHuge]
    decide
  have hmem : "claude-sonnet" ∈ (reviewCodeT cfgABC stClaude oracleAllFail reqHuge).1 := by
    simp only [reviewCodeT]
    rw [estimateTokens_reqHuge]
    decide
  have h := unfitting_skipped_except_last_resort cfgABC stClaude oracleAllFail
    reqHuge "claude-sonnet" hmem hfits
  exact ⟨hfits, h.1, h.2.1, h.2.2⟩

theorem waveStep_foldl (oracle : FileInfo → Option RawReview)
    (hashFn : String → String) (statFile : FileInfo → Option Int)
    (templateName authMethod : String) (now : Int) (batch : List FileInfo) :
    ∀ acc : List ReviewResult × Cache × List RunEvent,
    ∃ D : List RunEvent, ∃ c : Cache,
      batch.foldl (waveStep oracle hashFn statFile templateName authMethod now) acc
        = (acc.1 ++ D.filterMap doneResult, c, acc.2.2 ++ D) ∧
      (∀ e ∈ D, isSettleEvent e = true) ∧
      D.filterMap doneResult
        = batch.filterMap
            (fun f => (oracle f).map (buildResult f templateName authMethod)) := by
  induction batch with
  | nil =>
      intro acc
      exact ⟨[], acc.2.1, by simp, by simp, by simp⟩
  | cons f bs ih =>
      intro acc
      obtain ⟨D, c, heq, hs, hflat⟩ :=
        ih (waveStep oracle hashFn statFile templateName authMethod now acc f)
      cases ho : oracle f with
      | some raw =>
          refine ⟨RunEvent.fileDone (buildResult f templateName authMethod raw) :: D,
            c, ?_, ?_, ?_⟩
          · rw [List.foldl_cons, heq]
            simp [waveStep, ho, doneResult]
          · intro e he
            rcases List.mem_cons.mp he with rfl | he2
            · rfl
            · exact hs e he2
          · simp [doneResult, hflat, ho]
      | none =>
          refine ⟨RunEvent.fileFailed f.relativePath :: D, c, ?_, ?_, ?_⟩
          · rw [List.foldl_cons, heq]
            simp [waveStep, ho, doneResult]
          · intro e he
            rcases List.mem_cons.mp he with rfl | he2
            · rfl
            · exact hs e he2
          · simp [doneResult, hflat, ho]

theorem processWave_spec (oracle : FileInfo → Option RawReview)
    (hashFn : String → String) (statFile : FileInfo → Option Int)
    (templateName authMethod : String) (now : Int) (cache : Cache)
    (batch : List FileInfo) :
    ∃ D : List RunEvent, ∃ c : Cache,
      processWave oracle hashFn statFile templateName authMethod now cache batch
        = (D.filterMap doneResult, c,
           (batch.map (fun f => f.relativePath)).map RunEvent.issue
             ++ D ++ [RunEvent.waveAppend (D.filterMap doneResult)]) ∧
      (∀ e ∈ D, isSettleEvent e = true) ∧
      D.filterMap doneResult
        = batch.filterMap
            (fun f => (oracle f).map (buildResult f templateName authMethod)) := by
  obtain ⟨D, c, heq, hs, hflat⟩ :=
    waveStep_foldl oracle hashFn statFile templateName authMethod now batch
      ([], cache, [])
  refine ⟨D, c, ?_, hs, hflat⟩
  simp only [processWave, heq]
  simp [List.map_map]

theorem runWaves_spec (oracle : FileInfo → Option RawReview)
    (hashFn : String → String) (statFile : FileInfo → Option Int)
    (templateName authMethod : String) (now : Int) (conc : Nat) :
    ∀ (ws : List (List FileInfo)) (cache : Cache),
      (runWaves oracle hashFn statFile templateName authMethod now ws cache).1
        = ws.flatten.filterMap
            (fun f => (oracle f).map (buildResult f templateName authMethod)) ∧
      ((∀ b ∈ ws, b.length ≤ conc) →
        WaveShaped conc
          (runWaves oracle hashFn statFile templateName authMethod now ws cache).2.2) := by
  intro ws
  induction ws with
  | nil =>
      intro cache
      exact ⟨by simp [runWaves], fun _ => .nil⟩
  | cons b rest ih =>
      intro cache
      obtain ⟨D, c, heq, hs, hflat⟩ :=
        processWave_spec oracle hashFn statFile templateName authMethod now cache b
      constructor
      · simp only [runWaves, heq]
        rw [((ih c).1 : _ = _), hflat]
        simp
      · intro hb
        have hshape := (ih c).2 (fun x hx => hb x (List.mem_cons_of_mem b hx))
        have hlen : (b.map (fun f => f.relativePath)).length ≤ conc := by
          rw [List.length_map]
          exact hb b (List.mem_cons_self b rest)
        have hw := @WaveShaped.wave conc
          (b.map (fun f => f.relativePath)) D
          (runWaves oracle hashFn statFile templateName authMethod now rest c).2.2
          hlen hs hshape
        simp only [runWaves, heq]
        simpa [List.append_assoc] using hw

theorem waveShaped_no_persist {conc : Nat} {W : List RunEvent}
    (h : WaveShaped conc W) : ∀ e ∈ W, isPersistEvent e = false := by
  induction h with
  | nil => simp
  | wave paths dones rest hlen hs hrest ih =>
      intro e he
      rcases List.mem_append.mp he with h1 | h2
      · rcases List.mem_append.mp h1 with h3 | h4
        · obtain ⟨p, _, rfl⟩ := List.mem_map.mp h3
          rfl
        · have := hs e h4
          cases e <;> simp_all [isSettleEvent, isPersistEvent]
      · rcases List.mem_cons.mp h2 with rfl | h5
        · rfl
        · exact ih e h5

theorem chunksGo_mem_length (conc : Nat) :
    ∀ (fuel : Nat) (l b : List FileInfo), b ∈ chunksGo conc fuel l →
      b.length ≤ conc := by
  intro fuel
  induction fuel with
  | zero => intro l b h; simp [chunksGo] at h
  | succ k ih =>
      intro l b h
      by_cases hl : l.isEmpty
      · simp [chunksGo, hl] at h
      · simp only [chunksGo, if_neg hl] at h
        rcases List.mem_cons.mp h with rfl | h2
        · rw [List.length_take]
          exact min_le_left conc l.length
        · exact ih (l.drop conc) b h2

theorem chunksGo_join (conc : Nat) (hc : 1 ≤ conc) :
    ∀ (fuel : Nat) (l : List FileInfo), l.length ≤ fuel →
      (chunksGo conc fuel l).flatten = l := by
  intro fuel
  induction fuel with
  | zero =>
      intro l h
      have : l = [] := List.eq_nil_of_length_eq_zero (Nat.le_zero.mp h)
      simp [chunksGo, this]
  | succ k ih =>
      intro l h
      by_cases hl : l.isEmpty
      · have : l = [] := List.isEmpty_iff.mp hl
        simp [chunksGo, hl, this]
      · have hne : l ≠ [] := fun hn => hl (by simp [hn])
        have hpos : 1 ≤ l.length := List.length_pos.mpr hne
        simp only [chunksGo, if_neg hl, List.flatten_cons]
        rw [ih (l.drop conc) (by rw [List.length_drop]; omega)]
        exact List.take_append_drop conc l

/-- C8.  In every single-category batch run, the event trace is exactly:
every cache-hit result emitted first (in partition order), followed by a
wave-shaped remainder — each wave issues at most `concurrency` calls,
all of them settle, and exactly the wave's successful results are
appended before the next wave issues its first call. -/
theorem hits_emitted_first_then_bounded_waves
    (oracle : FileInfo → Option RawReview) (hashFn : String → String)
    (statFile : FileInfo → Option Int) (files : List FileInfo)
    (templateName authMethod : String) (conc : Nat) (now : Int) (cache : Cache) :
    ∃ W : List RunEvent,
      (reviewMultipleFiles oracle hashFn statFile files templateName authMethod
          conc now cache).2.2
        = (separateFiles hashFn statFile cache files templateName).1.map
            (fun hr => RunEvent.emitHit hr.2) ++ W ∧
      WaveShaped conc W := by
  refine ⟨(runWaves oracle hashFn statFile templateName authMethod now
    (chunks conc (separateFiles hashFn statFile cache files templateName).2.1)
    (separateFiles hashFn statFile cache files templateName).2.2).2.2, ?_, ?_⟩
  · simp only [reviewMultipleFiles]
    rw [List.map_map]
    rfl
  · exact (runWaves_spec oracle hashFn statFile templateName authMethod now conc
      _ _).2 (fun b hb => chunksGo_mem_length conc _ _ b hb)

/-- C3 (amended).  During one template run the session store is written
exactly once — a single `markFilesCompleted` after the entire
`reviewMultipleFiles` call returns (all waves settled) — never once per
wave: the run's own trace contains no persistence event, and the
pipeline appends the one persistence at the very end.  A crash mid-run
therefore loses every wave of the in-flight run, not just the last
wave. -/
theorem session_persisted_once_after_all_waves
    (oracle : FileInfo → Option RawReview) (hashFn : String → String)
    (statFile : FileInfo → Option Int) (store : SessionStore)
    (session : ReviewSession) (files : List FileInfo)
    (templateName authMethod : String) (conc : Nat) (now : Int)
    (nowSession : Nat) (cache : Cache) :
    (runTemplatePipeline oracle hashFn statFile store session files templateName
        authMethod conc now nowSession cache).2.2.2.2
      = (reviewMultipleFiles oracle hashFn statFile files templateName authMethod
          conc now cache).2.2
        ++ [RunEvent.persist
             (markFilesCompleted store session
               (reviewMultipleFiles oracle hashFn statFile files templateName
                 authMethod conc now cache).1 nowSession).1.id] ∧
    (reviewMultipleFiles oracle hashFn statFile files templateName authMethod
        conc now cache).2.2.all (fun e => !(isPersistEvent e)) = true := by
  constructor
  · rfl
  · rw [List.all_eq_true]
    intro e he
    simp only [reviewMultipleFiles] at he
    rcases List.mem_append.mp he with h1 | h2
    · obtain ⟨r, _, rfl⟩ := List.mem_map.mp h1
      rfl
    · have hshape := (runWaves_spec oracle hashFn statFile templateName authMethod
        now conc
        (chunks conc (separateFiles hashFn statFile cache files templateName).2.1)
        (separateFiles hashFn statFile cache files templateName).2.2).2
        (fun b hb => chunksGo_mem_length conc _ _ b hb)
      have := waveShaped_no_persist hshape e h2
      simp [this]

/-- C3 (counterexample).  Three files at concurrency 2 (two waves), all
reviews succeeding: when wave 2's first call is issued (trace index 5),
no session persistence has happened — the one and only persistence of
the run is the final trace event, after both waves.  A crash during
wave 2 would lose wave 1's results, contradicting a once-per-wave
checkpoint. -/
theorem no_checkpoint_between_waves :
    waveTrace.get? 5 = some (RunEvent.issue "c.ts") ∧
    (waveTrace.take 6).all (fun e => !(isPersistEvent e)) = true ∧
    (waveTrace.filter isPersistEvent).length = 1 ∧
    waveTrace.get? 8 = some (RunEvent.persist waveSession.1.id) := by
  refine ⟨by decide, by decide, by decide, by decide⟩

theorem runMMWaves_mem (config : ModelConfig) (st : ProviderState)
    (oracle : String → Except ProviderError ModelResponse)
    (templateName systemPrompt : String) (now : Int) :
    ∀ (ws : List (List FileInfo)) (rs : List MultiModelReviewResult)
      (f : FileInfo) (r : MultiModelReviewResult),
      runMMWaves config st oracle templateName systemPrompt now ws = some rs →
      f ∈ ws.flatten →
      reviewFileMM config st oracle f templateName systemPrompt now = .done r →
      r ∈ rs := by
  intro ws
  induction ws with
  | nil =>
      intro rs f r _ hf _
      simp at hf
  | cons batch rest ih =>
      intro rs f r hrun hf hdone
      simp only [runMMWaves] at hrun
      by_cases hex : (batch.map (fun g =>
          reviewFileMM config st oracle g templateName systemPrompt now)).contains
          MMOutcome.exited
      · rw [if_pos hex] at hrun
        exact absurd hrun (by simp)
      · rw [if_neg hex] at hrun
        obtain ⟨tail, htail, hrs⟩ := Option.map_eq_some'.mp hrun
        subst hrs
        rw [List.flatten_cons] at hf
        rcases List.mem_append.mp hf with hfb | hfr
        · have hmem : MMOutcome.done r ∈ batch.map (fun g =>
              reviewFileMM config st oracle g templateName systemPrompt now) :=
            List.mem_map.mpr ⟨f, hfb, hdone⟩
          exact List.mem_append_left _
            (List.mem_filterMap.mpr ⟨MMOutcome.done r, hmem, rfl⟩)
        · exact List.mem_append_right _ (ih tail f r htail hfr hdone)

theorem waveStepX_none_absorbing (oracle : FileInfo → Option RawReview)
    (hashFn : String → String) (statFile : FileInfo → Option Int)
    (templateName authMethod : String) (now : Int) :
    ∀ batch : List FileInfo,
      batch.foldl
        (waveStepX oracle hashFn statFile templateName authMethod now) none
        = none := by
  intro batch
  induction batch with
  | nil => rfl
  | cons f bs ih =>
      rw [List.foldl_cons]
      exact ih

theorem foldl_waveStepX_of_fail (oracle : FileInfo → Option RawReview)
    (hashFn : String → String) (statFile : FileInfo → Option Int)
    (templateName authMethod : String) (now : Int) :
    ∀ (batch : List FileInfo) (f : FileInfo), f ∈ batch → oracle f = none →
      ∀ acc : Option (List ReviewResult × Cache),
        batch.foldl
          (waveStepX oracle hashFn statFile templateName authMethod now) acc
          = none := by
  intro batch
  induction batch with
  | nil =>
      intro f hf
      simp at hf
  | cons g bs ih =>
      intro f hf hfail acc
      rw [List.foldl_cons]
      rcases List.mem_cons.mp hf with rfl | hbs
      · have hstep : waveStepX oracle hashFn statFile templateName authMethod
            now acc f = none := by
          cases acc with
          | none => rfl
          | some p => simp [waveStepX, hfail]
        rw [hstep]
        exact waveStepX_none_absorbing oracle hashFn statFile templateName
          authMethod now bs
      · exact ih f hbs hfail _

theorem runWavesX_none_absorbing (oracle : FileInfo → Option RawReview)
    (hashFn : String → String) (statFile : FileInfo → Option Int)
    (templateName authMethod : String) (now : Int) :
    ∀ ws : List (List FileInfo),
      runWavesX oracle hashFn statFile templateName authMethod now ws none
        = none := by
  intro ws
  induction ws with
  | nil => rfl
  | cons b rest ih =>
      simp only [runWavesX]
      rw [waveStepX_none_absorbing]
      exact ih

theorem runWavesX_of_fail (oracle : FileInfo → Option RawReview)
    (hashFn : String → String) (statFile : FileInfo → Option Int)
    (templateName authMethod : String) (now : Int) :
    ∀ (ws : List (List FileInfo)) (batch : List FileInfo) (f : FileInfo),
      batch ∈ ws → f ∈ batch → oracle f = none →
      ∀ acc : Option (List ReviewResult × Cache),
        runWavesX oracle hashFn statFile templateName authMethod now ws acc
          = none := by
  intro ws
  induction ws with
  | nil =>
      intro batch f h
      simp at h
  | cons b rest ih =>
      intro batch f hb hf hfail acc
      simp only [runWavesX]
      rcases List.mem_cons.mp hb with rfl | hrest
      · rw [foldl_waveStepX_of_fail oracle hashFn statFile templateName
          authMethod now batch f hf hfail acc]
        exact runWavesX_none_absorbing oracle hashFn statFile templateName
          authMethod now rest
      · exact ih batch f hrest hf hfail _

/-- C1 (amended).  Neither half of the claim holds.  In the single-model
batch runner a review failure never yields an entry-less result list:
`reviewFile` routes every failure to an `ErrorHandler` routine whose
every branch calls `process.exit(1)`, so the per-file catch is
unreachable, the batch does not continue past the failed file, and no
result list is returned at all (the run aborts).  In the multi-model
reviewer a terminal `reviewCode` failure with an ordinary error is
caught and returned as a placeholder result with `hasIssues = false`
and `modelUsed = "error"`, which lands in the returned result list — a
false "clean" result.  Failures are thus never observable by mere
absence: they abort the process, or appear as false-clean entries. -/
theorem failed_review_exits_or_returns_placeholder
    (oracle : FileInfo → Option RawReview) (hashFn : String → String)
    (statFile : FileInfo → Option Int) (files : List FileInfo)
    (templateName authMethod : String) (conc : Nat) (now : Int) (cache : Cache)
    (f : FileInfo)
    (hc : 1 ≤ conc)
    (hmiss : f ∈ (separateFiles hashFn statFile cache files templateName).2.1)
    (hfail : oracle f = none)
    (config : ModelConfig) (st : ProviderState)
    (moracle : String → Except ProviderError ModelResponse)
    (mfiles : List FileInfo) (tn sp : String) (mconc : Nat) (mnow : Int)
    (rs : List MultiModelReviewResult) (g : FileInfo) (msg : String)
    (hmc : 1 ≤ mconc)
    (hrun : reviewMultipleFilesMM config st moracle mfiles tn sp mconc mnow
              = some rs)
    (hg : g ∈ mfiles)
    (herr : (reviewCodeT config st moracle (mmRequestOf g tn sp)).2
              = .error (.generic msg)) :
    reviewMultipleFilesX oracle hashFn statFile files templateName authMethod
        conc now cache = none ∧
    mmFallbackResult g tn msg mnow ∈ rs ∧
    (mmFallbackResult g tn msg mnow).hasIssues = false := by
  refine ⟨?_, ?_, rfl⟩
  · have hflat : (chunks conc
        (separateFiles hashFn statFile cache files templateName).2.1).flatten
        = (separateFiles hashFn statFile cache files templateName).2.1 := by
      simp only [chunks]
      exact chunksGo_join conc hc _ _ (le_refl _)
    obtain ⟨batch, hbmem, hfb⟩ := List.mem_flatten.mp (hflat.symm ▸ hmiss)
    simp only [reviewMultipleFilesX]
    exact runWavesX_of_fail oracle hashFn statFile templateName authMethod now
      (chunks conc (separateFiles hashFn statFile cache files templateName).2.1)
      batch f hbmem hfb hfail _
  · simp only [reviewMultipleFilesMM] at hrun
    cases hgo : getOptimalModel config st tn with
    | error e =>
        rw [hgo] at hrun
        exact absurd hrun (by simp)
    | ok m =>
        rw [hgo] at hrun
        dsimp only at hrun
        have hflat : (chunks mconc mfiles).flatten = mfiles := by
          simp only [chunks]
          exact chunksGo_join mconc hmc _ _ (le_refl _)
        have hdone : reviewFileMM config st moracle g tn sp mnow
            = .done (mmFallbackResult g tn msg mnow) := by
          simp only [reviewFileMM]
          rw [herr]
        exact runMMWaves_mem config st moracle tn sp mnow (chunks mconc mfiles)
          rs g _ hrun (hflat.symm ▸ hg) hdone

theorem failed_review_exits_or_returns_placeholder_witness :
    1 ≤ 2 ∧
    fileB ∈ (separateFiles hashDemo statAbsolutePath [] [fileA, fileB]
        "security").2.1 ∧
    oracleBfail fileB = none ∧
    1 ≤ 3 ∧
    reviewMultipleFilesMM cfgAllFallbacks stAll oracleAllFail [fileA]
        "security" "p" 3 0
      = some [mmFallbackResult fileA "security"
          "All suitable models failed for a.ts" 0] ∧
    fileA ∈ [fileA] ∧
    (reviewCodeT cfgAllFallbacks stAll oracleAllFail
        (mmRequestOf fileA "security" "p")).2
      = .error (.generic "All suitable models failed for a.ts") ∧
    (reviewMultipleFilesX oracleBfail hashDemo statAbsolutePath [fileA, fileB]
        "security" "oauth" 2 0 [] = none ∧
     mmFallbackResult fileA "security" "All suitable models failed for a.ts" 0
       ∈ [mmFallbackResult fileA "security"
           "All suitable models failed for a.ts" 0] ∧
     (mmFallbackResult fileA "security"
         "All suitable models failed for a.ts" 0).hasIssues = false) :=
  ⟨by decide, by decide, by decide, by decide, by decide, by decide, by decide,
   failed_review_exits_or_returns_placeholder oracleBfail hashDemo
     statAbsolutePath [fileA, fileB] "security" "oauth" 2 0 [] fileB (by decide)
     (by decide) (by decide) cfgAllFallbacks stAll oracleAllFail [fileA]
     "security" "p" 3 0
     [mmFallbackResult fileA "security" "All suitable models failed for a.ts" 0]
     fileA "All suitable models failed for a.ts" (by decide) (by decide)
     (by decide) (by decide)⟩

/-- C1 (counterexample).  One file, every model call failing with an
ordinary provider error: the multi-model batch returns a result list
containing a placeholder entry for the failed file, and that entry has
`hasIssues = false` — the failure is returned as a false "clean" result,
not recorded by absence. -/
theorem terminal_failure_returns_false_clean :
    reviewMultipleFilesMM cfgAllFallbacks stAll oracleAllFail [fileB]
        "security" "p" 2 0
      = some [mmFallbackResult fileB "security"
          "All suitable models failed for b.ts" 0] ∧
    (mmFallbackResult fileB "security"
        "All suitable models failed for b.ts" 0).hasIssues = false := by
  exact ⟨by decide, by decide⟩
